import Mathlib

/-!
Verification development for the mica scripting language
(compiler + register VM + value model + closure/upvalue protocol).

The definitions below are a shallow embedding of the C sources:
  * values and their operations   (src/unnamed/part_004, value_* functions)
  * arrays                        (src/unnamed/part_000)
  * interned strings              (src/unnamed/part_002)
  * iterators                     (src/iterator.c)
  * upvalue cells                 (src/upvalue.c)
  * the virtual machine           (src/vm.c)
  * the bytecode compiler         (src/unnamed/part_001)
  * the lexer                     (src/lexer.c)
  * the parser                    (src/parser.c)

Modelling conventions, stated once:
  * C pointers into heap object pools become indices (ids) into per-kind
    pools held in the machine state; pointer identity becomes id equality.
  * A pointer into the VM register file becomes the absolute register index.
  * `i32` payloads are modelled as unbounded Int (C signed overflow is
    undefined behaviour and no claim touches it); `f32` payloads are
    modelled as Rat with exact arithmetic (the claims proved below depend
    only on result tags and on comparisons of exactly representable
    values, where IEEE single arithmetic agrees with Rat).
  * `fprintf(stderr, ...)` diagnostics become an appended `Diag` list.
  * Reference counts are not modelled: no claim mentions them and they
    have no influence on any modelled observable.
  * Reading a C union member at the wrong tag (e.g. `as_f32` of a bool)
    is unspecified bit reinterpretation; the model returns a fixed
    default there and every theorem restricts itself to well-tagged
    operands.
-/

set_option maxRecDepth 1000000
set_option maxHeartbeats 4000000

namespace Mica

/-- Runtime value: tag plus payload, mirroring `struct Value` of mica.h.
`VAL_NATIVE` is used by the C code both for native-function pointers and
(by a type pun in OP_ITER_NEW) for iterator pointers; the model separates
the two referents into `native` and `iterv` because Lean cannot pun. -/
inductive Value where
  | i32 (n : Int)
  | f32 (x : Rat)
  | boolV (b : Bool)
  | arr (id : Nat)
  | str (id : Nat)
  | closure (id : Nat)
  | native (id : Nat)
  | iterv (id : Nat)
  | none
  deriving Repr, DecidableEq

/-- value_is_truthy from src/unnamed/part_004. -/
def value_is_truthy : Value → Bool
  | .boolV b => b
  | .none => false
  | .i32 n => n != 0
  | .f32 x => x != 0
  | _ => true

/-- value_equal from src/unnamed/part_004: differing tags are never equal;
heap kinds compare by pointer identity (id equality in the model). -/
def value_equal : Value → Value → Bool
  | .i32 a, .i32 b => a == b
  | .f32 a, .f32 b => a == b
  | .boolV a, .boolV b => a == b
  | .none, .none => true
  | .arr a, .arr b => a == b
  | .str a, .str b => a == b
  | .closure a, .closure b => a == b
  | .native a, .native b => a == b
  | .iterv a, .iterv b => a == b
  | _, _ => false

/-- Reading `v.as_i32` out of the union.  For a non-i32 value this is a bit
reinterpretation in C (unspecified); the model returns 0 there. -/
def as_i32_bits : Value → Int
  | .i32 n => n
  | _ => 0

/-- Reading `v.as_f32` out of the union; unspecified for non-f32 tags. -/
def as_f32_bits : Value → Rat
  | .f32 x => x
  | _ => 0

/-- The promotion expression that every arithmetic/ordering opcode of
src/vm.c uses in its mixed branch:
`(reg->type == VAL_I32) ? (float)reg->as_i32 : reg->as_f32`. -/
def promote_f32 (v : Value) : Rat :=
  match v with
  | .i32 n => (n : Rat)
  | _ => as_f32_bits v

/-- OP_ADD value computation (src/vm.c, case OP_ADD). -/
def op_add_val (a b : Value) : Value :=
  match a, b with
  | .i32 x, .i32 y => .i32 (x + y)
  | _, _ => .f32 (promote_f32 a + promote_f32 b)

/-- OP_SUB value computation (src/vm.c, case OP_SUB). -/
def op_sub_val (a b : Value) : Value :=
  match a, b with
  | .i32 x, .i32 y => .i32 (x - y)
  | _, _ => .f32 (promote_f32 a - promote_f32 b)

/-- OP_MUL value computation (src/vm.c, case OP_MUL). -/
def op_mul_val (a b : Value) : Value :=
  match a, b with
  | .i32 x, .i32 y => .i32 (x * y)
  | _, _ => .f32 (promote_f32 a * promote_f32 b)

/-- OP_DIV value computation (src/vm.c, case OP_DIV).  C integer division
truncates toward zero, which is Int.tdiv; division by integer zero is
undefined behaviour in C, so theorems put a nonzero hypothesis on that
branch. -/
def op_div_val (a b : Value) : Value :=
  match a, b with
  | .i32 x, .i32 y => .i32 (Int.tdiv x y)
  | _, _ => .f32 (promote_f32 a / promote_f32 b)

/-- OP_MOD value computation (src/vm.c, case OP_MOD): no tag check at all,
it reads `as_i32` of both operands; C `%` truncates like Int.tmod. -/
def op_mod_val (a b : Value) : Value :=
  .i32 (Int.tmod (as_i32_bits a) (as_i32_bits b))

/-- OP_NEG value computation (src/vm.c, case OP_NEG). -/
def op_neg_val (s : Value) : Value :=
  match s with
  | .i32 n => .i32 (-n)
  | _ => .f32 (-(as_f32_bits s))

/-- OP_EQ value computation (src/vm.c, case OP_EQ): delegates to
value_equal, with no numeric promotion. -/
def op_eq_val (a b : Value) : Value :=
  .boolV (value_equal a b)

/-- OP_NE value computation (src/vm.c, case OP_NE). -/
def op_ne_val (a b : Value) : Value :=
  .boolV (!(value_equal a b))

/-- OP_LT value computation (src/vm.c, case OP_LT): integer compare when
both are i32, otherwise numeric compare after int-to-float promotion. -/
def op_lt_val (a b : Value) : Value :=
  match a, b with
  | .i32 x, .i32 y => .boolV (decide (x < y))
  | _, _ => .boolV (decide (promote_f32 a < promote_f32 b))

/-- OP_LE value computation (src/vm.c, case OP_LE). -/
def op_le_val (a b : Value) : Value :=
  match a, b with
  | .i32 x, .i32 y => .boolV (decide (x ≤ y))
  | _, _ => .boolV (decide (promote_f32 a ≤ promote_f32 b))

/-- OP_GT value computation (src/vm.c, case OP_GT). -/
def op_gt_val (a b : Value) : Value :=
  match a, b with
  | .i32 x, .i32 y => .boolV (decide (x > y))
  | _, _ => .boolV (decide (promote_f32 a > promote_f32 b))

/-- OP_GE value computation (src/vm.c, case OP_GE). -/
def op_ge_val (a b : Value) : Value :=
  match a, b with
  | .i32 x, .i32 y => .boolV (decide (x ≥ y))
  | _, _ => .boolV (decide (promote_f32 a ≥ promote_f32 b))

/-! ### Arrays (src/unnamed/part_000) -/

/-- `struct Array`: capacity, length and payload; the `data` vector always
has `capacity` slots and slots at or beyond `length` hold none
(the array_new / array_push initialisation invariant of the source). -/
structure CArray where
  capacity : Nat
  length : Nat
  data : List Value
  deriving Repr, DecidableEq

/-- array_new: a requested capacity of 0 becomes 8; all slots start none. -/
def array_new (capacity : Nat) : CArray :=
  let cap := if capacity > 0 then capacity else 8
  { capacity := cap, length := 0, data := List.replicate cap Value.none }

/-- array_get: defensive none when `idx` is at or beyond length. -/
def array_get (arr : CArray) (idx : Nat) : Value :=
  if idx ≥ arr.length then Value.none else arr.data.getD idx Value.none

/-- array_set: silently ignores an index at or beyond length. -/
def array_set (arr : CArray) (idx : Nat) (val : Value) : CArray :=
  if idx ≥ arr.length then arr
  else { arr with data := arr.data.set idx val }

/-- array_push: doubles the capacity when full (new slots none), then
appends at index `length`. -/
def array_push (arr : CArray) (val : Value) : CArray :=
  let arr :=
    if arr.length ≥ arr.capacity then
      let new_cap := arr.capacity * 2
      { arr with
        capacity := new_cap,
        data := arr.data ++ List.replicate (new_cap - arr.capacity) Value.none }
    else arr
  { arr with data := arr.data.set arr.length val, length := arr.length + 1 }

/-- array_len (array_len(NULL) is 0 in the source; the model has no null). -/
def array_len (arr : CArray) : Nat :=
  arr.length

/-! ### Interned strings (src/unnamed/part_002)

The C intern table is a global hash table; distinct texts yield distinct
`String*` pointers and equal texts share one pointer.  The model keeps the
table as a list of texts, a text's id being its index; `string_intern`
returns the existing id or appends. -/

/-- string_intern on the model intern pool: returns (id, new pool). -/
def string_intern (pool : List String) (s : String) : Nat × List String :=
  match pool.indexOf? s with
  | some i => (i, pool)
  | Option.none => (pool.length, pool ++ [s])

/-! ### Iterators (src/iterator.c) -/

/-- `struct Iterator`: wrapped source value plus cursor. -/
structure IterObj where
  source : Value
  index : Nat
  deriving Repr, DecidableEq

/-- iter_new. -/
def iter_new (iterable : Value) : IterObj :=
  { source := iterable, index := 0 }

/-! ### Upvalue cells (src/upvalue.c and the copy of the struct in src/vm.c)

`location` is a `Value*`: while open it points into the VM register file
(modelled as the absolute register index); once closed it points at the
cell's own `closed` field (modelled as `UpvalLoc.self`). -/

inductive UpvalLoc where
  | slot (i : Nat)
  | self
  deriving Repr, DecidableEq

structure Upvalue where
  location : UpvalLoc
  closed : Value
  is_closed : Bool
  deriving Repr, DecidableEq

/-- upvalue_new: open cell over a register slot, closed storage none. -/
def upvalue_new (location : Nat) : Upvalue :=
  { location := UpvalLoc.slot location, closed := Value.none, is_closed := false }

/-- Dereferencing `*upval->location` given the register file. -/
def upval_read (regs : List Value) (u : Upvalue) : Value :=
  match u.location with
  | .slot i => regs.getD i Value.none
  | .self => u.closed

/-- Writing `*upval->location = v`: either a register write or a write to
the cell's own storage.  Returns (new registers, new cell). -/
def upval_write (regs : List Value) (u : Upvalue) (v : Value) :
    List Value × Upvalue :=
  match u.location with
  | .slot i => (regs.set i v, u)
  | .self => (regs, { u with closed := v })

/-- upvalue_close from src/upvalue.c: already-closed cells are left alone;
otherwise the value behind `location` is copied into `closed` and
`location` is retargeted at that storage. -/
def upvalue_close (regs : List Value) (u : Upvalue) : Upvalue :=
  if u.is_closed then u
  else { location := UpvalLoc.self, closed := upval_read regs u, is_closed := true }

/-! ### Bytecode, prototypes, frames, VM state (src/vm.c, mica_internal.h) -/

/-- The Opcode enum of mica_internal.h, as instruction-stream byte values. -/
def OP_NOP : Nat := 0
def OP_LOAD_CONST : Nat := 1
def OP_LOAD_LOCAL : Nat := 2
def OP_STORE_LOCAL : Nat := 3
def OP_MOVE : Nat := 4
def OP_LOAD_UPVAL : Nat := 5
def OP_STORE_UPVAL : Nat := 6
def OP_LOAD_GLOBAL : Nat := 7
def OP_STORE_GLOBAL : Nat := 8
def OP_ADD : Nat := 9
def OP_SUB : Nat := 10
def OP_MUL : Nat := 11
def OP_DIV : Nat := 12
def OP_MOD : Nat := 13
def OP_NEG : Nat := 14
def OP_EQ : Nat := 15
def OP_NE : Nat := 16
def OP_LT : Nat := 17
def OP_LE : Nat := 18
def OP_GT : Nat := 19
def OP_GE : Nat := 20
def OP_JMP : Nat := 21
def OP_JMP_IF : Nat := 22
def OP_JMP_IF_NOT : Nat := 23
def OP_RET : Nat := 24
def OP_CALL : Nat := 25
def OP_CLOSURE : Nat := 26
def OP_CLOSE_UPVAL : Nat := 27
def OP_CALL_NATIVE : Nat := 28
def OP_ARRAY_NEW : Nat := 29
def OP_ARRAY_GET : Nat := 30
def OP_ARRAY_SET : Nat := 31
def OP_ARRAY_LEN : Nat := 32
def OP_ARRAY_PUSH : Nat := 33
def OP_ITER_NEW : Nat := 34
def OP_ITER_NEXT : Nat := 35
def OP_ITER_HAS_NEXT : Nat := 36

def MAX_REGISTERS : Nat := 256
def MAX_FRAMES : Nat := 64

/-- FunctionProto (mica_internal.h): code bytes, constant pool, arity,
upvalue descriptors (is_local, index), optional debug name.  In the C
constant pool a nested prototype is stored as a `Value` tagged
VAL_CLOSURE whose pointer is a `FunctionProto*`; the model keeps all
prototypes in a pool on the machine state and such a constant is
`Value.closure pid` with `pid` indexing that pool.  This mirrors the
pointer pun of the source: the id is interpreted as a prototype only by
OP_CLOSURE, exactly as the C pointer is. -/
structure FunctionProto where
  code : List Nat
  constants : List Value
  arity : Nat
  upvalue_descs : List (Bool × Nat)
  name : Option String
  deriving Repr, DecidableEq

/-- Closure object of src/vm.c: prototype plus captured upvalue cell ids. -/
structure ClosureObj where
  protoId : Nat
  upvalues : List Nat
  deriving Repr, DecidableEq

/-- CallFrame of src/vm.c.  `ip` is the offset into the prototype's code;
`base` is `base_register`; `return_register` is a uint8 absolute register
index in C (so assignments into it truncate mod 256). -/
structure CallFrame where
  closureId : Nat
  ip : Nat
  base : Nat
  return_register : Nat
  deriving Repr, DecidableEq

/-- The diagnostics the core writes to stderr, one constructor per
distinct message. -/
inductive Diag where
  | undefinedVariable (name : String)
  | stackOverflow
  | notAFunction
  | notAnArray
  | indexNotInteger
  | indexOutOfBounds (i : Int)
  | notAnIterator
  | unknownOpcode (op : Nat)
  | cannotAssignImmutable (name : String)
  | tooManyNatives
  | tooManyUpvalues
  | tooManyLocals
  | breakOutsideLoop
  | parseError (line : Nat) (msg : String)
  deriving Repr, DecidableEq

/-- A registered native function: it receives the 256-slot argument
buffer and the argument count (NativeFunction of mica.h). -/
def NativeFn : Type := List Value → Nat → Value

/-- struct VM of src/vm.c, with the heap object pools made explicit.
`frames` keeps the top frame at the head of the list.  `open_upvalues`
is the open-upvalue list (cell ids), sorted by descending register slot
exactly as the C list is sorted by descending stack address.
`strings` is the intern table (src/unnamed/part_002); in C it is a
global, here it travels with the machine state. -/
structure VMState where
  registers : List Value
  frames : List CallFrame
  open_upvalues : List Nat
  upvalHeap : List Upvalue
  closures : List ClosureObj
  protos : List FunctionProto
  arrays : List CArray
  iters : List IterObj
  strings : List String
  globals : List (Nat × Value)
  natives : List (String × NativeFn)
  diags : List Diag

def defaultProto : FunctionProto :=
  { code := [], constants := [], arity := 0, upvalue_descs := [], name := Option.none }

def defaultClosure : ClosureObj := { protoId := 0, upvalues := [] }

/-- mica_new: all 256 registers initialised to none, everything empty. -/
def mica_new : VMState :=
  { registers := List.replicate MAX_REGISTERS Value.none
    frames := []
    open_upvalues := []
    upvalHeap := []
    closures := []
    protos := []
    arrays := []
    iters := []
    strings := []
    globals := []
    natives := []
    diags := [] }

def regGet (vm : VMState) (i : Nat) : Value :=
  vm.registers.getD i Value.none

def regSet (vm : VMState) (i : Nat) (v : Value) : VMState :=
  { vm with registers := vm.registers.set i v }

/-- The register slot an open upvalue cell points at.  Only open cells
appear on the open-upvalue list, so the `self` branch is never consulted
there. -/
def upvalSlot (heap : List Upvalue) (id : Nat) : Nat :=
  match (heap.getD id (upvalue_new 0)).location with
  | .slot i => i
  | .self => 0

/-- capture_upvalue of src/vm.c: walk the open list (sorted by descending
slot) to the first cell whose slot is not above `local`; reuse it when it
is exactly `local`, otherwise splice a fresh open cell in at that
position.  Returns the cell id and the updated state. -/
def capture_upvalue (vm : VMState) (localIdx : Nat) : Nat × VMState :=
  let pre := vm.open_upvalues.takeWhile (fun id => localIdx < upvalSlot vm.upvalHeap id)
  let rest := vm.open_upvalues.dropWhile (fun id => localIdx < upvalSlot vm.upvalHeap id)
  match rest with
  | id :: _ =>
    if upvalSlot vm.upvalHeap id = localIdx then (id, vm)
    else
      let newId := vm.upvalHeap.length
      (newId, { vm with
                  upvalHeap := vm.upvalHeap ++ [upvalue_new localIdx],
                  open_upvalues := pre ++ newId :: rest })
  | [] =>
      let newId := vm.upvalHeap.length
      (newId, { vm with
                  upvalHeap := vm.upvalHeap ++ [upvalue_new localIdx],
                  open_upvalues := pre ++ [newId] })

/-- The loop body of close_upvalues: pop and close list-head cells while
their slot is at or above `last`. -/
def close_list (regs : List Value) (heap : List Upvalue) :
    List Nat → Nat → List Nat × List Upvalue
  | [], _ => ([], heap)
  | id :: restIds, last =>
    if last ≤ upvalSlot heap id then
      let heap' := heap.set id (upvalue_close regs (heap.getD id (upvalue_new 0)))
      close_list regs heap' restIds last
    else (id :: restIds, heap)

/-- close_upvalues of src/vm.c: close every open upvalue whose register
slot is at or above `last` (they form a prefix of the descending-sorted
open list) and drop them from the list. -/
def close_upvalues (vm : VMState) (last : Nat) : VMState :=
  let p := close_list vm.registers vm.upvalHeap vm.open_upvalues last
  { vm with open_upvalues := p.fst, upvalHeap := p.snd }

/-- find_global of src/vm.c: linear scan; name identity is intern id
equality (pointer equality in C).  Returns the index of the entry. -/
def find_global (vm : VMState) (nameId : Nat) : Option Nat :=
  vm.globals.findIdx? (fun g => g.fst = nameId)

/-- find_native of src/vm.c: linear scan of the registry by name text. -/
def find_native (vm : VMState) (name : String) : Option Nat :=
  vm.natives.findIdx? (fun p => p.fst = name)

/-- mica_register_native: bounded registry of 64, overflow reported and
ignored. -/
def mica_register_native (vm : VMState) (name : String) (fn : NativeFn) : VMState :=
  if vm.natives.length ≥ 64 then
    { vm with diags := vm.diags ++ [Diag.tooManyNatives] }
  else
    { vm with natives := vm.natives ++ [(name, fn)] }

/-- mica_set_global of src/vm.c: intern the name, overwrite an existing
entry or append a new one. -/
def mica_set_global (vm : VMState) (name : String) (val : Value) : VMState :=
  let p := string_intern vm.strings name
  let vm := { vm with strings := p.snd }
  match find_global vm p.fst with
  | some i => { vm with globals := vm.globals.set i (p.fst, val) }
  | Option.none => { vm with globals := vm.globals ++ [(p.fst, val)] }

/-- mica_get_global of src/vm.c: none when absent. -/
def mica_get_global (vm : VMState) (name : String) : Value :=
  let p := string_intern vm.strings name
  match (string_intern vm.strings name).fst, find_global { vm with strings := p.snd } p.fst with
  | _, some i => (vm.globals.getD i (0, Value.none)).snd
  | _, Option.none => Value.none

/-- READ_SHORT of src/vm.c: big-endian two bytes reinterpreted as a
signed 16-bit offset. -/
def toInt16 (hi lo : Nat) : Int :=
  let v := (hi % 256) * 256 + lo % 256
  if v < 32768 then (v : Int) else (v : Int) - 65536

/-- iter_next of src/iterator.c: arrays advance the cursor and yield the
element, everything else is immediately exhausted. -/
def iter_next (it : IterObj) (arrays : List CArray) : Value × IterObj :=
  match it.source with
  | .arr id =>
    let arr := arrays.getD id (array_new 8)
    if it.index ≥ array_len arr then (Value.none, it)
    else (array_get arr it.index, { it with index := it.index + 1 })
  | _ => (Value.none, it)

/-- iter_has_next of src/iterator.c. -/
def iter_has_next (it : IterObj) (arrays : List CArray) : Bool :=
  match it.source with
  | .arr id => it.index < array_len (arrays.getD id (array_new 8))
  | _ => false

/-- The OP_CALL register pre-zeroing loop of src/vm.c: registers i with
new_base ≤ i < new_base + 32, i < MAX_REGISTERS and i ≥ new_base + nargs
are set to none.  Registers of the new window at window index 32 or above
are NOT touched. -/
def zero_call_window (regs : List Value) (new_base nargs : Nat) : List Value :=
  (List.range 32).foldl
    (fun rs k =>
      if new_base + k < MAX_REGISTERS ∧ nargs ≤ k then
        rs.set (new_base + k) Value.none
      else rs)
    regs

/-- The upvalue-descriptor capture loop of OP_CLOSURE: for each
descriptor byte pair, either capture the enclosing frame register
(is_local nonzero) or share the enclosing closure's cell.  Returns the
cell id list in order plus the updated state. -/
def capture_descs (vm : VMState) (base : Nat) (enclosing : ClosureObj) :
    List (Nat × Nat) → List Nat × VMState
  | [] => ([], vm)
  | (is_local, index) :: rest =>
    if is_local ≠ 0 then
      let p := capture_upvalue vm (base + index)
      let q := capture_descs p.snd base enclosing rest
      (p.fst :: q.fst, q.snd)
    else
      let q := capture_descs vm base enclosing rest
      (enclosing.upvalues.getD index 0 :: q.fst, q.snd)

/-- Result of one dispatch iteration: continue, or leave the loop with
the bool that mica_run returns (state kept so that its observables can
be inspected, as the caller-owned VM survives the C call). -/
inductive StepRes where
  | next (vm : VMState)
  | halt (ok : Bool) (vm : VMState)

/-- One iteration of the mica_run dispatch loop (src/vm.c).  Operand
bytes are read relative to the top frame's ip and register operands are
window-relative.  The C loop reads past the code buffer only on
ill-formed bytecode (undefined behaviour); the model reads byte 0
there. -/
def step (vm : VMState) : StepRes :=
  match vm.frames with
  | [] => .halt false vm
  | frame :: rest =>
    let clos := vm.closures.getD frame.closureId defaultClosure
    let proto := vm.protos.getD clos.protoId defaultProto
    let byteAt : Nat → Nat := fun k => proto.code.getD (frame.ip + k) 0
    let adv : VMState → Nat → StepRes := fun vmx n =>
      .next { vmx with frames := { frame with ip := frame.ip + n } :: rest }
    let instr := byteAt 0
    if instr = OP_NOP then
      adv vm 1
    else if instr = OP_LOAD_CONST then
      adv (regSet vm (frame.base + byteAt 2) (proto.constants.getD (byteAt 1) Value.none)) 3
    else if instr = OP_LOAD_LOCAL then
      adv (regSet vm (frame.base + byteAt 2) (regGet vm (frame.base + byteAt 1))) 3
    else if instr = OP_STORE_LOCAL then
      adv (regSet vm (frame.base + byteAt 1) (regGet vm (frame.base + byteAt 2))) 3
    else if instr = OP_MOVE then
      adv (regSet vm (frame.base + byteAt 2) (regGet vm (frame.base + byteAt 1))) 3
    else if instr = OP_LOAD_UPVAL then
      let cell := vm.upvalHeap.getD (clos.upvalues.getD (byteAt 1) 0) (upvalue_new 0)
      adv (regSet vm (frame.base + byteAt 2) (upval_read vm.registers cell)) 3
    else if instr = OP_STORE_UPVAL then
      let id := clos.upvalues.getD (byteAt 1) 0
      let cell := vm.upvalHeap.getD id (upvalue_new 0)
      let p := upval_write vm.registers cell (regGet vm (frame.base + byteAt 2))
      adv { vm with registers := p.fst, upvalHeap := vm.upvalHeap.set id p.snd } 3
    else if instr = OP_LOAD_GLOBAL then
      let name_val := proto.constants.getD (byteAt 1) Value.none
      let nameId := match name_val with
        | .str id => id
        | _ => 0
      match find_global vm nameId with
      | some i => adv (regSet vm (frame.base + byteAt 2) (vm.globals.getD i (0, Value.none)).snd) 3
      | Option.none =>
        match find_native vm (vm.strings.getD nameId "") with
        | some j => adv (regSet vm (frame.base + byteAt 2) (Value.native j)) 3
        | Option.none =>
          let vm := { vm with
            diags := vm.diags ++ [Diag.undefinedVariable (vm.strings.getD nameId "")] }
          adv (regSet vm (frame.base + byteAt 2) Value.none) 3
    else if instr = OP_STORE_GLOBAL then
      let name_val := proto.constants.getD (byteAt 1) Value.none
      let nameId := match name_val with
        | .str id => id
        | _ => 0
      let src_val := regGet vm (frame.base + byteAt 2)
      match find_global vm nameId with
      | some i => adv { vm with globals := vm.globals.set i (nameId, src_val) } 3
      | Option.none => adv { vm with globals := vm.globals ++ [(nameId, src_val)] } 3
    else if instr = OP_ADD then
      adv (regSet vm (frame.base + byteAt 3)
        (op_add_val (regGet vm (frame.base + byteAt 1)) (regGet vm (frame.base + byteAt 2)))) 4
    else if instr = OP_SUB then
      adv (regSet vm (frame.base + byteAt 3)
        (op_sub_val (regGet vm (frame.base + byteAt 1)) (regGet vm (frame.base + byteAt 2)))) 4
    else if instr = OP_MUL then
      adv (regSet vm (frame.base + byteAt 3)
        (op_mul_val (regGet vm (frame.base + byteAt 1)) (regGet vm (frame.base + byteAt 2)))) 4
    else if instr = OP_DIV then
      adv (regSet vm (frame.base + byteAt 3)
        (op_div_val (regGet vm (frame.base + byteAt 1)) (regGet vm (frame.base + byteAt 2)))) 4
    else if instr = OP_MOD then
      adv (regSet vm (frame.base + byteAt 3)
        (op_mod_val (regGet vm (frame.base + byteAt 1)) (regGet vm (frame.base + byteAt 2)))) 4
    else if instr = OP_NEG then
      adv (regSet vm (frame.base + byteAt 2) (op_neg_val (regGet vm (frame.base + byteAt 1)))) 3
    else if instr = OP_EQ then
      adv (regSet vm (frame.base + byteAt 3)
        (op_eq_val (regGet vm (frame.base + byteAt 1)) (regGet vm (frame.base + byteAt 2)))) 4
    else if instr = OP_NE then
      adv (regSet vm (frame.base + byteAt 3)
        (op_ne_val (regGet vm (frame.base + byteAt 1)) (regGet vm (frame.base + byteAt 2)))) 4
    else if instr = OP_LT then
      adv (regSet vm (frame.base + byteAt 3)
        (op_lt_val (regGet vm (frame.base + byteAt 1)) (regGet vm (frame.base + byteAt 2)))) 4
    else if instr = OP_LE then
      adv (regSet vm (frame.base + byteAt 3)
        (op_le_val (regGet vm (frame.base + byteAt 1)) (regGet vm (frame.base + byteAt 2)))) 4
    else if instr = OP_GT then
      adv (regSet vm (frame.base + byteAt 3)
        (op_gt_val (regGet vm (frame.base + byteAt 1)) (regGet vm (frame.base + byteAt 2)))) 4
    else if instr = OP_GE then
      adv (regSet vm (frame.base + byteAt 3)
        (op_ge_val (regGet vm (frame.base + byteAt 1)) (regGet vm (frame.base + byteAt 2)))) 4
    else if instr = OP_JMP then
      let off := toInt16 (byteAt 1) (byteAt 2)
      .next { vm with frames := { frame with ip := ((frame.ip + 3 : Int) + off).toNat } :: rest }
    else if instr = OP_JMP_IF then
      let off := toInt16 (byteAt 2) (byteAt 3)
      let tgt := if value_is_truthy (regGet vm (frame.base + byteAt 1))
                 then ((frame.ip + 4 : Int) + off).toNat else frame.ip + 4
      .next { vm with frames := { frame with ip := tgt } :: rest }
    else if instr = OP_JMP_IF_NOT then
      let off := toInt16 (byteAt 2) (byteAt 3)
      let tgt := if !(value_is_truthy (regGet vm (frame.base + byteAt 1)))
                 then ((frame.ip + 4 : Int) + off).toNat else frame.ip + 4
      .next { vm with frames := { frame with ip := tgt } :: rest }
    else if instr = OP_RET then
      let nvals := byteAt 1
      let result := if nvals > 0 then regGet vm (frame.base + byteAt 2) else Value.none
      let vm := close_upvalues vm frame.base
      match rest with
      | [] => .halt true { vm with frames := [] }
      | _ => .next (regSet { vm with frames := rest } frame.return_register result)
    else if instr = OP_CALL then
      let func_reg := byteAt 1
      let nargs := byteAt 2
      let dest := byteAt 3
      let func_val := regGet vm (frame.base + func_reg)
      match func_val with
      | .native nid =>
        -- memset(args, 0, ...) gives 256 Values with type 0 = VAL_I32, payload 0
        let buf := List.replicate 256 (Value.i32 0)
        let args := (List.range nargs).foldl
          (fun b i => b.set i (regGet vm (frame.base + func_reg + 1 + i))) buf
        let fn := (vm.natives.getD nid ("", fun _ _ => Value.none)).snd
        adv (regSet vm (frame.base + dest) (fn args nargs)) 4
      | .closure cid =>
        if vm.frames.length ≥ MAX_FRAMES then
          .halt false { vm with diags := vm.diags ++ [Diag.stackOverflow] }
        else
          let new_base := frame.base + func_reg + 1
          let regs := zero_call_window vm.registers new_base nargs
          let new_frame : CallFrame :=
            { closureId := cid, ip := 0, base := new_base,
              return_register := (frame.base + dest) % 256 }
          .next { vm with
                    registers := regs,
                    frames := new_frame :: { frame with ip := frame.ip + 4 } :: rest }
      | _ =>
        .halt false { vm with diags := vm.diags ++ [Diag.notAFunction] }
    else if instr = OP_CLOSURE then
      let const_idx := byteAt 1
      let dest := byteAt 2
      let upvalue_count := byteAt 3
      let proto_val := proto.constants.getD const_idx Value.none
      -- the VAL_CLOSURE constant holds a FunctionProto pointer in C
      let pid := match proto_val with
        | .closure id => id
        | _ => 0
      let descs := (List.range upvalue_count).map
        (fun i => (byteAt (4 + 2 * i), byteAt (5 + 2 * i)))
      let p := capture_descs vm frame.base clos descs
      let vm := p.snd
      let newId := vm.closures.length
      let vm := { vm with closures := vm.closures ++ [{ protoId := pid, upvalues := p.fst }] }
      adv (regSet vm (frame.base + dest) (Value.closure newId)) (4 + 2 * upvalue_count)
    else if instr = OP_CLOSE_UPVAL then
      adv (close_upvalues vm (frame.base + byteAt 1)) 2
    else if instr = OP_ARRAY_NEW then
      let id := vm.arrays.length
      let vm := { vm with arrays := vm.arrays ++ [array_new (byteAt 1)] }
      adv (regSet vm (frame.base + byteAt 2) (Value.arr id)) 3
    else if instr = OP_ARRAY_GET then
      match regGet vm (frame.base + byteAt 1), regGet vm (frame.base + byteAt 2) with
      | .arr id, .i32 idx =>
        let arr := vm.arrays.getD id (array_new 8)
        if idx < 0 ∨ array_len arr ≤ idx.toNat then
          .halt false { vm with diags := vm.diags ++ [Diag.indexOutOfBounds idx] }
        else
          adv (regSet vm (frame.base + byteAt 3) (array_get arr idx.toNat)) 4
      | .arr _, _ =>
        .halt false { vm with diags := vm.diags ++ [Diag.indexNotInteger] }
      | _, _ =>
        .halt false { vm with diags := vm.diags ++ [Diag.notAnArray] }
    else if instr = OP_ARRAY_SET then
      match regGet vm (frame.base + byteAt 1), regGet vm (frame.base + byteAt 2) with
      | .arr id, .i32 idx =>
        let arr := vm.arrays.getD id (array_new 8)
        if idx < 0 ∨ array_len arr ≤ idx.toNat then
          .halt false { vm with diags := vm.diags ++ [Diag.indexOutOfBounds idx] }
        else
          adv { vm with
                  arrays := vm.arrays.set id
                    (array_set arr idx.toNat (regGet vm (frame.base + byteAt 3))) } 4
      | .arr _, _ =>
        .halt false { vm with diags := vm.diags ++ [Diag.indexNotInteger] }
      | _, _ =>
        .halt false { vm with diags := vm.diags ++ [Diag.notAnArray] }
    else if instr = OP_ARRAY_LEN then
      -- no tag check in the source; a non-array operand is undefined
      -- behaviour there and length 0 here
      let len := match regGet vm (frame.base + byteAt 1) with
        | .arr id => array_len (vm.arrays.getD id (array_new 8))
        | _ => 0
      adv (regSet vm (frame.base + byteAt 2) (Value.i32 len)) 3
    else if instr = OP_ARRAY_PUSH then
      -- no tag check in the source; a non-array operand is undefined
      -- behaviour there and a no-op here
      match regGet vm (frame.base + byteAt 1) with
      | .arr id =>
        let arr := vm.arrays.getD id (array_new 8)
        adv { vm with
                arrays := vm.arrays.set id
                  (array_push arr (regGet vm (frame.base + byteAt 2))) } 3
      | _ => adv vm 3
    else if instr = OP_ITER_NEW then
      -- the C code stores the Iterator pointer under tag VAL_NATIVE;
      -- the model uses the separate iterv tag (see Value)
      let id := vm.iters.length
      let vm := { vm with iters := vm.iters ++ [iter_new (regGet vm (frame.base + byteAt 1))] }
      adv (regSet vm (frame.base + byteAt 2) (Value.iterv id)) 3
    else if instr = OP_ITER_NEXT then
      match regGet vm (frame.base + byteAt 1) with
      | .iterv id =>
        let p := iter_next (vm.iters.getD id (iter_new Value.none)) vm.arrays
        let vm := { vm with iters := vm.iters.set id p.snd }
        adv (regSet vm (frame.base + byteAt 2) p.fst) 3
      | _ => .halt false { vm with diags := vm.diags ++ [Diag.notAnIterator] }
    else if instr = OP_ITER_HAS_NEXT then
      match regGet vm (frame.base + byteAt 1) with
      | .iterv id =>
        adv (regSet vm (frame.base + byteAt 2)
          (Value.boolV (iter_has_next (vm.iters.getD id (iter_new Value.none)) vm.arrays))) 3
      | _ => .halt false { vm with diags := vm.diags ++ [Diag.notAnIterator] }
    else
      .halt false { vm with diags := vm.diags ++ [Diag.unknownOpcode instr] }

/-- The dispatch loop, fuel-bounded (the C loop may diverge; Option.none
means the fuel ran out, never that the C code returned). -/
def runLoop : Nat → VMState → Option (Bool × VMState)
  | 0, _ => Option.none
  | fuel + 1, vm =>
    match step vm with
    | .next vm' => runLoop fuel vm'
    | .halt b vm' => some (b, vm')

/-- mica_run of src/vm.c: immediately false when no frame is pushed,
otherwise the dispatch loop. -/
def mica_run (fuel : Nat) (vm : VMState) : Option (Bool × VMState) :=
  if vm.frames.isEmpty then some (false, vm) else runLoop fuel vm

/-! ### AST (mica_internal.h).

One constructor per AstType the parser can produce.  `AST_ASSIGN` in C
carries either a name (identifier target) or a target node (index
target); the model splits the two shapes into `assign` and `assignIdx`.
AST_MATCH / AST_MATCH_ARM are never produced by the parser and are
omitted. -/
inductive Ast where
  | intLit (n : Int)
  | floatLit (x : Rat)
  | strLit (s : String)
  | boolLit (b : Bool)
  | noneLit
  | ident (name : String)
  | arrayLit (elems : List Ast)
  | binary (op : String) (left right : Ast)
  | unary (op : String) (operand : Ast)
  | call (callee : Ast) (args : List Ast)
  | indexE (array index : Ast)
  | letD (name : String) (is_mut : Bool) (init : Ast)
  | assign (name : String) (value : Ast)
  | assignIdx (array index value : Ast)
  | block (stmts : List Ast)
  | ifS (cond thenB : Ast) (elseB : Option Ast)
  | whileS (cond body : Ast)
  | forS (var : String) (iterable body : Ast)
  | loopS (body : Ast)
  | breakS
  | returnS (value : Ast)
  | fnD (name : String) (params : List String) (body : Ast)
  | closureE (params : List String) (body : Ast)
  | iterChain (source : Ast) (methods : List (String × Ast))

/-! ### Compiler (src/unnamed/part_001) -/

/-- Local of the compiler: name, scope depth, captured and mutable
flags.  Depth is a C int (Int here: end_scope can in principle drive
scope_depth negative). -/
structure Local where
  name : String
  depth : Int
  is_captured : Bool
  is_mut : Bool
  deriving Repr, DecidableEq

/-- LoopContext: the break-patch address list of one enclosing loop. -/
structure LoopCtx where
  patches : List Nat
  deriving Repr, DecidableEq

/-- Compiler state for one function being compiled, with the
FunctionProto under construction flattened in (code, constants, arity,
upvalue_descs, name).  The `enclosing` pointer of the C struct becomes
the tail of a compiler list (see CompCtx). -/
structure Compiler where
  locals : List Local
  scope_depth : Int
  register_count : Nat
  loops : List LoopCtx
  code : List Nat
  constants : List Value
  arity : Nat
  upvalue_descs : List (Bool × Nat)
  name : Option String

/-- compiler_init (the enclosing link lives in the CompCtx chain). -/
def compiler_init (name : Option String) : Compiler :=
  { locals := [], scope_depth := 0, register_count := 0, loops := [],
    code := [], constants := [], arity := 0, upvalue_descs := [], name := name }

/-- Whole-compilation state: the chain of nested compilers (head =
innermost, tail = enclosing chain), the pool of finished prototypes,
the global intern table, and the stderr diagnostics. -/
structure CompCtx where
  comps : List Compiler
  pool : List FunctionProto
  strings : List String
  diags : List Diag

/-- emit_byte: appended bytes truncate to uint8. -/
def emit_byte (c : Compiler) (b : Nat) : Compiler :=
  { c with code := c.code ++ [b % 256] }

/-- emit_op. -/
def emit_op (c : Compiler) (op : Nat) : Compiler :=
  emit_byte c op

/-- add_constant: returns the (uint8-cast) index of the new slot. -/
def add_constant (c : Compiler) (val : Value) : Nat × Compiler :=
  (c.constants.length % 256, { c with constants := c.constants ++ [val] })

/-- alloc_register: returns the (uint8-cast) previous register_count. -/
def alloc_register (c : Compiler) : Nat × Compiler :=
  (c.register_count % 256, { c with register_count := c.register_count + 1 })

/-- free_register: saturating decrement. -/
def free_register (c : Compiler) : Compiler :=
  if c.register_count > 0 then { c with register_count := c.register_count - 1 } else c

/-- begin_loop. -/
def begin_loop (c : Compiler) : Compiler :=
  { c with loops := { patches := [] } :: c.loops }

/-- The two bytes `(off >> 8) & 0xFF` and `off & 0xFF` of an int16 jump
offset (two's complement). -/
def int16_bytes (off : Int) : Nat × Nat :=
  let u := (off % 65536).toNat
  (u / 256, u % 256)

/-- Backpatching a 16-bit offset at `addr` (the position of its two
placeholder bytes). -/
def patch_jump (c : Compiler) (addr : Nat) (off : Int) : Compiler :=
  let b := int16_bytes off
  { c with code := (c.code.set addr b.fst).set (addr + 1) b.snd }

/-- end_loop: fill each break placeholder with the forward distance from
the byte after the placeholder to the current end of code, then pop the
loop context. -/
def end_loop (c : Compiler) : Compiler :=
  match c.loops with
  | [] => c
  | loop :: restLoops =>
    let c := loop.patches.foldl
      (fun cc addr => patch_jump cc addr ((cc.code.length : Int) - ((addr : Int) + 2))) c
    { c with loops := restLoops }

/-- begin_scope. -/
def begin_scope (c : Compiler) : Compiler :=
  { c with scope_depth := c.scope_depth + 1 }

/-- The pop loop of end_scope: drop trailing locals that are deeper than
the (already decremented) scope depth, emitting CLOSE_UPVAL for each
captured one. -/
def end_scope_loop : Nat → Compiler → Compiler
  | 0, c => c
  | n + 1, c =>
    match c.locals.getLast? with
    | Option.none => c
    | some l =>
      if l.depth > c.scope_depth then
        let c2 := if l.is_captured
          then emit_byte (emit_op c OP_CLOSE_UPVAL) (c.locals.length - 1)
          else c
        end_scope_loop n { c2 with locals := c2.locals.dropLast }
      else c

/-- end_scope of src/unnamed/part_001. -/
def end_scope (c : Compiler) : Compiler :=
  let c := { c with scope_depth := c.scope_depth - 1 }
  end_scope_loop c.locals.length c

/-- The downward scan of resolve_local: the last element of the list is
the highest local index and is tested first. -/
def resolve_local_scan (locals : List Local) (name : String) : Option Nat :=
  match locals with
  | [] => Option.none
  | l :: restL =>
    match resolve_local_scan restL name with
    | some i => some (i + 1)
    | Option.none => if l.name = name then some 0 else Option.none

/-- resolve_local of src/unnamed/part_001: scan locals from index
local_count-1 down to 0, first match wins (None stands for C's -1). -/
def resolve_local (c : Compiler) (name : String) : Option Nat :=
  resolve_local_scan c.locals name

/-- Result of add_upvalue: descriptor index (None = C's -1), updated
compiler, diagnostics. -/
structure AddUpRes where
  idx : Option Nat
  comp : Compiler
  errs : List Diag

/-- add_upvalue: dedup on (index, is_local) pairs, capacity 256. -/
def add_upvalue (c : Compiler) (index : Nat) (is_local : Bool) : AddUpRes :=
  match c.upvalue_descs.findIdx? (fun d => d.snd = index ∧ d.fst = is_local) with
  | some i => { idx := some i, comp := c, errs := [] }
  | Option.none =>
    if c.upvalue_descs.length ≥ 256 then
      { idx := Option.none, comp := c, errs := [Diag.tooManyUpvalues] }
    else
      { idx := some c.upvalue_descs.length,
        comp := { c with upvalue_descs := c.upvalue_descs ++ [(is_local, index)] },
        errs := [] }

/-- Result of resolve_upvalue: upvalue index in the head compiler (None
= C's -1), the updated compiler chain, diagnostics. -/
structure ResolveRes where
  idx : Option Nat
  chain : List Compiler
  errs : List Diag

/-- resolve_upvalue of src/unnamed/part_001, on the whole compiler
chain (head = current).  Resolving through an enclosing local sets that
local's captured flag; otherwise recurse outward and forward the cell
with is_local = false. -/
def resolve_upvalue : List Compiler → String → ResolveRes
  | [], _ => { idx := Option.none, chain := [], errs := [] }
  | [c], _ => { idx := Option.none, chain := [c], errs := [] }
  | c :: e :: up2, name =>
    match resolve_local e name with
    | some localI =>
      let l := e.locals.getD localI { name := "", depth := 0, is_captured := false, is_mut := false }
      let e := { e with locals := e.locals.set localI { l with is_captured := true } }
      let r := add_upvalue c localI true
      { idx := r.idx, chain := r.comp :: e :: up2, errs := r.errs }
    | Option.none =>
      let q := resolve_upvalue (e :: up2) name
      match q.idx with
      | some upI =>
        let r := add_upvalue c upI false
        { idx := r.idx, chain := r.comp :: q.chain, errs := q.errs ++ r.errs }
      | Option.none =>
        { idx := Option.none, chain := c :: q.chain, errs := q.errs }

/-- declare_local: capacity 256, overflow reported and dropped. -/
def declare_local (c : Compiler) (name : String) (is_mut : Bool) :
    Compiler × List Diag :=
  if c.locals.length ≥ 256 then (c, [Diag.tooManyLocals])
  else
    ({ c with locals := c.locals ++
        [{ name := name, depth := c.scope_depth, is_captured := false, is_mut := is_mut }] },
     [])

def defaultCompiler : Compiler := compiler_init Option.none

/-- Apply an update to the current compiler (head of the chain). -/
def modCur (ctx : CompCtx) (f : Compiler → Compiler) : CompCtx :=
  match ctx.comps with
  | [] => ctx
  | c :: rest => { ctx with comps := f c :: rest }

/-- Emit one byte (or opcode) into the current compiler. -/
def ctx_emit (ctx : CompCtx) (b : Nat) : CompCtx :=
  modCur ctx (fun c => emit_byte c b)

/-- alloc_register on the current compiler. -/
def ctx_alloc (ctx : CompCtx) : Nat × CompCtx :=
  match ctx.comps with
  | [] => (0, ctx)
  | c :: up =>
    let p := alloc_register c
    (p.fst, { ctx with comps := p.snd :: up })

/-- declare_local on the current compiler. -/
def ctx_declare (ctx : CompCtx) (name : String) (is_mut : Bool) : CompCtx :=
  match ctx.comps with
  | [] => ctx
  | c :: up =>
    let r := declare_local c name is_mut
    { ctx with comps := r.fst :: up, diags := ctx.diags ++ r.snd }

/-- Code length of the current compiler (code_count). -/
def ctx_len (ctx : CompCtx) : Nat :=
  (ctx.comps.headD defaultCompiler).code.length

/-- The opcode selected by the strcmp chain of compile_binary; None when
no branch matches (in which case the source emits no opcode byte but
still the three operand bytes). -/
def binary_opcode (op : String) : Option Nat :=
  if op = "+" then some OP_ADD
  else if op = "-" then some OP_SUB
  else if op = "*" then some OP_MUL
  else if op = "/" then some OP_DIV
  else if op = "%" then some OP_MOD
  else if op = "==" then some OP_EQ
  else if op = "!=" then some OP_NE
  else if op = "<" then some OP_LT
  else if op = "<=" then some OP_LE
  else if op = ">" then some OP_GT
  else if op = ">=" then some OP_GE
  else Option.none

/-- compile_literal of src/unnamed/part_001 (string literals intern into
the global table). -/
def compile_literal (ctx : CompCtx) (ast : Ast) : Nat × CompCtx :=
  match ctx.comps with
  | [] => (0, ctx)
  | c :: up =>
    let p := alloc_register c
    let reg := p.fst
    let c := p.snd
    match ast with
    | .strLit s =>
      let q := string_intern ctx.strings s
      let r := add_constant c (Value.str q.fst)
      let c := emit_byte (emit_byte (emit_op r.snd OP_LOAD_CONST) r.fst) reg
      (reg, { ctx with comps := c :: up, strings := q.snd })
    | _ =>
      let val := match ast with
        | .intLit n => Value.i32 n
        | .floatLit x => Value.f32 x
        | .boolLit b => Value.boolV b
        | _ => Value.none
      let r := add_constant c val
      let c := emit_byte (emit_byte (emit_op r.snd OP_LOAD_CONST) r.fst) reg
      (reg, { ctx with comps := c :: up })

/-- compile_ident: local, then upvalue, then global. -/
def compile_ident (ctx : CompCtx) (name : String) : Nat × CompCtx :=
  match ctx.comps with
  | [] => (0, ctx)
  | c :: up =>
    let p := alloc_register c
    let reg := p.fst
    let c := p.snd
    match resolve_local c name with
    | some i =>
      let c := emit_byte (emit_byte (emit_op c OP_LOAD_LOCAL) i) reg
      (reg, { ctx with comps := c :: up })
    | Option.none =>
      let r := resolve_upvalue (c :: up) name
      let ctx := { ctx with comps := r.chain, diags := ctx.diags ++ r.errs }
      match r.idx with
      | some u =>
        (reg, modCur ctx (fun cc => emit_byte (emit_byte (emit_op cc OP_LOAD_UPVAL) u) reg))
      | Option.none =>
        let q := string_intern ctx.strings name
        let ctx := { ctx with strings := q.snd }
        match ctx.comps with
        | [] => (reg, ctx)
        | c2 :: up2 =>
          let rc := add_constant c2 (Value.str q.fst)
          let c2 := emit_byte (emit_byte (emit_op rc.snd OP_LOAD_GLOBAL) rc.fst) reg
          (reg, { ctx with comps := c2 :: up2 })

/-- compile_break: JMP with a placeholder registered on the innermost
loop context; outside any loop it is a reported error. -/
def compile_break (ctx : CompCtx) : CompCtx :=
  match ctx.comps with
  | [] => ctx
  | c :: up =>
    match c.loops with
    | [] => { ctx with diags := ctx.diags ++ [Diag.breakOutsideLoop] }
    | loop :: restLoops =>
      let c := emit_op c OP_JMP
      let addr := c.code.length
      let c := { c with loops := { patches := loop.patches ++ [addr] } :: restLoops }
      let c := emit_byte (emit_byte c 0) 0
      { ctx with comps := c :: up }

mutual

/-- compile_expr dispatch of src/unnamed/part_001 (fuel-bounded
recursion; the default arm allocates a register like the C default). -/
def compile_expr : Nat → Ast → CompCtx → Nat × CompCtx
  | 0, _, ctx => (0, ctx)
  | fuel + 1, ast, ctx =>
    match ast with
    | .intLit _ => compile_literal ctx ast
    | .floatLit _ => compile_literal ctx ast
    | .boolLit _ => compile_literal ctx ast
    | .strLit _ => compile_literal ctx ast
    | .noneLit => compile_literal ctx ast
    | .ident n => compile_ident ctx n
    | .binary op l r => compile_binary fuel op l r ctx
    | .unary op e => compile_unary fuel op e ctx
    | .arrayLit es => compile_array fuel es ctx
    | .indexE a i => compile_index fuel a i ctx
    | .call f as => compile_call fuel f as ctx
    | .closureE ps b => compile_closure fuel ps b ctx
    | .iterChain src ms => compile_iter_chain fuel src ms ctx
    | _ => ctx_alloc ctx

/-- compile_binary: operands then a fresh destination; operand registers
are freed afterwards. -/
def compile_binary : Nat → String → Ast → Ast → CompCtx → Nat × CompCtx
  | 0, _, _, _, ctx => (0, ctx)
  | fuel + 1, op, l, r, ctx =>
    let pl := compile_expr fuel l ctx
    let pr2 := compile_expr fuel r pl.snd
    let pd := ctx_alloc pr2.snd
    let ctx := match binary_opcode op with
      | some o => ctx_emit pd.snd o
      | Option.none => pd.snd
    let ctx := ctx_emit (ctx_emit (ctx_emit ctx pl.fst) pr2.fst) pd.fst
    let ctx := modCur (modCur ctx free_register) free_register
    (pd.fst, ctx)

/-- compile_unary: only the "-" branch emits anything. -/
def compile_unary : Nat → String → Ast → CompCtx → Nat × CompCtx
  | 0, _, _, ctx => (0, ctx)
  | fuel + 1, op, e, ctx =>
    let po := compile_expr fuel e ctx
    let pd := ctx_alloc po.snd
    let ctx :=
      if op = "-" then ctx_emit (ctx_emit (ctx_emit pd.snd OP_NEG) po.fst) pd.fst
      else pd.snd
    (pd.fst, modCur ctx free_register)

/-- compile_array: ARRAY_NEW with the element count as capacity, then
one ARRAY_PUSH per element. -/
def compile_array : Nat → List Ast → CompCtx → Nat × CompCtx
  | 0, _, ctx => (0, ctx)
  | fuel + 1, elems, ctx =>
    let pd := ctx_alloc ctx
    let ctx := ctx_emit (ctx_emit (ctx_emit pd.snd OP_ARRAY_NEW) elems.length) pd.fst
    let ctx := compile_array_elems fuel pd.fst elems ctx
    (pd.fst, ctx)

/-- The per-element loop of compile_array. -/
def compile_array_elems : Nat → Nat → List Ast → CompCtx → CompCtx
  | 0, _, _, ctx => ctx
  | _ + 1, _, [], ctx => ctx
  | fuel + 1, arr_reg, e :: rest, ctx =>
    let pe := compile_expr fuel e ctx
    let ctx := ctx_emit (ctx_emit (ctx_emit pe.snd OP_ARRAY_PUSH) arr_reg) pe.fst
    compile_array_elems fuel arr_reg rest (modCur ctx free_register)

/-- compile_index: ARRAY_GET into a fresh destination. -/
def compile_index : Nat → Ast → Ast → CompCtx → Nat × CompCtx
  | 0, _, _, ctx => (0, ctx)
  | fuel + 1, a, i, ctx =>
    let pa := compile_expr fuel a ctx
    let pi2 := compile_expr fuel i pa.snd
    let pd := ctx_alloc pi2.snd
    let ctx := ctx_emit (ctx_emit (ctx_emit (ctx_emit pd.snd OP_ARRAY_GET) pa.fst) pi2.fst) pd.fst
    (pd.fst, modCur (modCur ctx free_register) free_register)

/-- The argument-compilation loop of compile_call, collecting each
argument's result register. -/
def compile_args : Nat → List Ast → CompCtx → List Nat × CompCtx
  | 0, _, ctx => ([], ctx)
  | _ + 1, [], ctx => ([], ctx)
  | fuel + 1, a :: rest, ctx =>
    let p := compile_expr fuel a ctx
    let q := compile_args fuel rest p.snd
    (p.fst :: q.fst, q.snd)

/-- compile_call: callee, then arguments, then MOVEs to bring each
argument into the contiguous slots above the callee, then CALL.  The
argument scratch registers are not freed (as in the source). -/
def compile_call : Nat → Ast → List Ast → CompCtx → Nat × CompCtx
  | 0, _, _, ctx => (0, ctx)
  | fuel + 1, callee, args, ctx =>
    let pf := compile_expr fuel callee ctx
    let pargs := compile_args fuel args pf.snd
    let arg_start := (pf.fst + 1) % 256
    let ctx := pargs.fst.enum.foldl
      (fun cc q =>
        let target := (arg_start + q.fst) % 256
        if q.snd ≠ target then ctx_emit (ctx_emit (ctx_emit cc OP_MOVE) q.snd) target
        else cc)
      pargs.snd
    let pd := ctx_alloc ctx
    let ctx := ctx_emit (ctx_emit (ctx_emit (ctx_emit pd.snd OP_CALL) pf.fst) args.length) pd.fst
    (pd.fst, ctx)

/-- compile_closure: compile the body in a fresh nested compiler
(parameters as the first locals), append an implicit RET 0, then emit
CLOSURE with the collected upvalue descriptors in the enclosing
compiler.  The finished prototype goes into the pool and its pool index
is stored as a VAL_CLOSURE-tagged constant (the pointer pun of the
source). -/
def compile_closure : Nat → List String → Ast → CompCtx → Nat × CompCtx
  | 0, _, _, ctx => (0, ctx)
  | fuel + 1, params, body, ctx =>
    let inner0 := compiler_init Option.none
    let inner0 := { inner0 with arity := params.length }
    let inner0 := begin_scope inner0
    let pr := params.foldl
      (fun (acc : Compiler × List Diag) pname =>
        let r := declare_local acc.fst pname false
        (r.fst, acc.snd ++ r.snd))
      (inner0, [])
    let inner0 := { pr.fst with register_count := pr.fst.locals.length }
    let ctx := { ctx with comps := inner0 :: ctx.comps, diags := ctx.diags ++ pr.snd }
    let ctx :=
      match body with
      | Ast.block _ => compile_stmt fuel body ctx
      | _ =>
        let p := compile_expr fuel body ctx
        let cx := ctx_emit (ctx_emit (ctx_emit p.snd OP_RET) 1) p.fst
        modCur cx free_register
    let ctx := ctx_emit (ctx_emit ctx OP_RET) 0
    let ctx := modCur ctx end_scope
    match ctx.comps with
    | [] => (0, ctx)
    | inner :: restComps =>
      let proto : FunctionProto :=
        { code := inner.code, constants := inner.constants, arity := inner.arity,
          upvalue_descs := inner.upvalue_descs, name := inner.name }
      let pid := ctx.pool.length
      let ctx := { ctx with comps := restComps, pool := ctx.pool ++ [proto] }
      match ctx.comps with
      | [] => (0, ctx)
      | c :: up =>
        let rc := add_constant c (Value.closure pid)
        let pa := alloc_register rc.snd
        let reg := pa.fst
        let c := emit_byte (emit_byte (emit_byte (emit_op pa.snd OP_CLOSURE) rc.fst) reg)
          inner.upvalue_descs.length
        let c := inner.upvalue_descs.foldl
          (fun cc d => emit_byte (emit_byte cc (if d.fst then 1 else 0)) d.snd) c
        (reg, { ctx with comps := c :: up })

/-- compile_iter_chain: the chain lowers to its source expression alone;
the parsed methods are discarded (as in the source). -/
def compile_iter_chain : Nat → Ast → List (String × Ast) → CompCtx → Nat × CompCtx
  | 0, _, _, ctx => (0, ctx)
  | fuel + 1, src, _, ctx => compile_expr fuel src ctx

/-- compile_let: globals at scope depth 0 via STORE_GLOBAL; otherwise a
local pinned to the register slot equal to its locals-table index (the
local is declared before its initialiser is compiled). -/
def compile_let : Nat → String → Bool → Ast → CompCtx → CompCtx
  | 0, _, _, _, ctx => ctx
  | fuel + 1, name, is_mut, init, ctx =>
    match ctx.comps with
    | [] => ctx
    | c :: up =>
      if c.scope_depth = 0 then
        let p := compile_expr fuel init { ctx with comps := c :: up }
        let ctx := p.snd
        let q := string_intern ctx.strings name
        let ctx := { ctx with strings := q.snd }
        match ctx.comps with
        | [] => ctx
        | c2 :: up2 =>
          let rn := add_constant c2 (Value.str q.fst)
          let c2 := emit_byte (emit_byte (emit_op rn.snd OP_STORE_GLOBAL) rn.fst) p.fst
          { ctx with comps := free_register c2 :: up2 }
      else
        let local_slot := c.locals.length
        let r := declare_local c name is_mut
        let ctx := { ctx with comps := r.fst :: up, diags := ctx.diags ++ r.snd }
        let p := compile_expr fuel init ctx
        let ctx := p.snd
        let ctx :=
          if p.fst ≠ local_slot % 256 then
            ctx_emit (ctx_emit (ctx_emit ctx OP_MOVE) p.fst) local_slot
          else ctx
        let ctx := ctx_emit (ctx_emit (ctx_emit ctx OP_STORE_LOCAL) local_slot) local_slot
        let ctx := modCur ctx (fun cc =>
          if cc.register_count ≤ local_slot then { cc with register_count := local_slot + 1 }
          else cc)
        modCur ctx (fun cc =>
          if cc.register_count > cc.locals.length then
            { cc with register_count := cc.locals.length }
          else cc)

/-- compile_assign: an index target becomes ARRAY_SET; a name target
resolves local, then upvalue, then global.  Assigning to an immutable
local is reported but the STORE_LOCAL is emitted anyway. -/
def compile_assign : Nat → Ast → CompCtx → CompCtx
  | 0, _, ctx => ctx
  | fuel + 1, ast, ctx =>
    match ast with
    | .assignIdx arrE idxE valE =>
      let p1 := compile_expr fuel arrE ctx
      let p2 := compile_expr fuel idxE p1.snd
      let p3 := compile_expr fuel valE p2.snd
      let ctx := ctx_emit (ctx_emit (ctx_emit (ctx_emit p3.snd OP_ARRAY_SET) p1.fst) p2.fst) p3.fst
      modCur (modCur (modCur ctx free_register) free_register) free_register
    | .assign name valE =>
      let p := compile_expr fuel valE ctx
      let ctx := p.snd
      let val_reg := p.fst
      match ctx.comps with
      | [] => ctx
      | c :: up =>
        match resolve_local c name with
        | some i =>
          let l := c.locals.getD i { name := "", depth := 0, is_captured := false, is_mut := false }
          let ds := if !l.is_mut then [Diag.cannotAssignImmutable name] else []
          let c := emit_byte (emit_byte (emit_op c OP_STORE_LOCAL) i) val_reg
          { ctx with comps := free_register c :: up, diags := ctx.diags ++ ds }
        | Option.none =>
          let r := resolve_upvalue (c :: up) name
          let ctx := { ctx with comps := r.chain, diags := ctx.diags ++ r.errs }
          match r.idx with
          | some u =>
            modCur (modCur ctx
              (fun cc => emit_byte (emit_byte (emit_op cc OP_STORE_UPVAL) u) val_reg))
              free_register
          | Option.none =>
            let q := string_intern ctx.strings name
            let ctx := { ctx with strings := q.snd }
            match ctx.comps with
            | [] => ctx
            | c2 :: up2 =>
              let rn := add_constant c2 (Value.str q.fst)
              let c2 := emit_byte (emit_byte (emit_op rn.snd OP_STORE_GLOBAL) rn.fst) val_reg
              { ctx with comps := free_register c2 :: up2 }
    | _ => ctx

/-- compile_if with backpatched JMP_IF_NOT and optional JMP over the
else branch. -/
def compile_if : Nat → Ast → Ast → Option Ast → CompCtx → CompCtx
  | 0, _, _, _, ctx => ctx
  | fuel + 1, cond, thenB, elseB, ctx =>
    let p := compile_expr fuel cond ctx
    let ctx := ctx_emit (ctx_emit p.snd OP_JMP_IF_NOT) p.fst
    let else_jmp := ctx_len ctx
    let ctx := ctx_emit (ctx_emit ctx 0) 0
    let ctx := modCur ctx free_register
    let ctx := compile_stmt fuel thenB ctx
    match elseB with
    | some eb =>
      let ctx := ctx_emit ctx OP_JMP
      let end_jmp := ctx_len ctx
      let ctx := ctx_emit (ctx_emit ctx 0) 0
      let ctx := modCur ctx
        (fun c => patch_jump c else_jmp ((c.code.length : Int) - (else_jmp : Int) - 2))
      let ctx := compile_stmt fuel eb ctx
      modCur ctx (fun c => patch_jump c end_jmp ((c.code.length : Int) - (end_jmp : Int) - 2))
    | Option.none =>
      modCur ctx (fun c => patch_jump c else_jmp ((c.code.length : Int) - (else_jmp : Int) - 2))

/-- compile_while: head, condition, backpatched exit, body, backward
JMP. -/
def compile_while : Nat → Ast → Ast → CompCtx → CompCtx
  | 0, _, _, ctx => ctx
  | fuel + 1, cond, body, ctx =>
    let ctx := modCur ctx begin_loop
    let loop_start := ctx_len ctx
    let p := compile_expr fuel cond ctx
    let ctx := ctx_emit (ctx_emit p.snd OP_JMP_IF_NOT) p.fst
    let exit_jmp := ctx_len ctx
    let ctx := ctx_emit (ctx_emit ctx 0) 0
    let ctx := modCur ctx free_register
    let ctx := compile_stmt fuel body ctx
    let ctx := modCur ctx (fun c =>
      let c := emit_op c OP_JMP
      let b := int16_bytes (-(((c.code.length : Int) - (loop_start : Int)) + 2))
      emit_byte (emit_byte c b.fst) b.snd)
    let ctx := modCur ctx
      (fun c => patch_jump c exit_jmp ((c.code.length : Int) - (exit_jmp : Int) - 2))
    modCur ctx end_loop

/-- compile_for: desugars to an iterator held in the hidden local
".iter" plus the loop variable, per the source. -/
def compile_for : Nat → String → Ast → Ast → CompCtx → CompCtx
  | 0, _, _, _, ctx => ctx
  | fuel + 1, var, iterable, body, ctx =>
    let ctx := modCur ctx begin_loop
    let ctx := modCur ctx begin_scope
    let p := compile_expr fuel iterable ctx
    let q1 := ctx_alloc p.snd
    let ctx := ctx_emit (ctx_emit (ctx_emit q1.snd OP_ITER_NEW) p.fst) q1.fst
    let ctx := modCur ctx free_register
    let ctx := ctx_declare ctx ".iter" false
    let iter_local := (ctx.comps.headD defaultCompiler).locals.length - 1
    let ctx := ctx_emit (ctx_emit (ctx_emit ctx OP_STORE_LOCAL) iter_local) q1.fst
    let ctx := modCur ctx free_register
    let ctx := ctx_declare ctx var false
    let var_local := (ctx.comps.headD defaultCompiler).locals.length - 1
    let loop_start := ctx_len ctx
    let q2 := ctx_alloc ctx
    let ctx := ctx_emit (ctx_emit (ctx_emit q2.snd OP_LOAD_LOCAL) iter_local) q2.fst
    let q3 := ctx_alloc ctx
    let ctx := ctx_emit (ctx_emit (ctx_emit q3.snd OP_ITER_HAS_NEXT) q2.fst) q3.fst
    let ctx := ctx_emit (ctx_emit ctx OP_JMP_IF_NOT) q3.fst
    let exit_jmp := ctx_len ctx
    let ctx := ctx_emit (ctx_emit ctx 0) 0
    let ctx := modCur ctx free_register
    let q4 := ctx_alloc ctx
    let ctx := ctx_emit (ctx_emit (ctx_emit q4.snd OP_ITER_NEXT) q2.fst) q4.fst
    let ctx := modCur ctx free_register
    let ctx := ctx_emit (ctx_emit (ctx_emit ctx OP_STORE_LOCAL) var_local) q4.fst
    let ctx := modCur ctx free_register
    let ctx := compile_stmt fuel body ctx
    let ctx := modCur ctx (fun c =>
      let c := emit_op c OP_JMP
      let b := int16_bytes (-(((c.code.length : Int) - (loop_start : Int)) + 2))
      emit_byte (emit_byte c b.fst) b.snd)
    let ctx := modCur ctx
      (fun c => patch_jump c exit_jmp ((c.code.length : Int) - (exit_jmp : Int) - 2))
    let ctx := modCur ctx end_scope
    modCur ctx end_loop

/-- compile_loop: body plus backward JMP; exits only via break. -/
def compile_loop : Nat → Ast → CompCtx → CompCtx
  | 0, _, ctx => ctx
  | fuel + 1, body, ctx =>
    let ctx := modCur ctx begin_loop
    let loop_start := ctx_len ctx
    let ctx := compile_stmt fuel body ctx
    let ctx := modCur ctx (fun c =>
      let c := emit_op c OP_JMP
      let b := int16_bytes (-(((c.code.length : Int) - (loop_start : Int)) + 2))
      emit_byte (emit_byte c b.fst) b.snd)
    modCur ctx end_loop

/-- compile_return: RET 1 with the value register, or bare RET 0 (the
parser stores an AST_NONE node when no value is written). -/
def compile_return : Nat → Ast → CompCtx → CompCtx
  | 0, _, ctx => ctx
  | fuel + 1, value, ctx =>
    match value with
    | Ast.noneLit => ctx_emit (ctx_emit ctx OP_RET) 0
    | v =>
      let p := compile_expr fuel v ctx
      let ctx := ctx_emit (ctx_emit (ctx_emit p.snd OP_RET) 1) p.fst
      modCur ctx free_register

/-- The statement loop of compile_block (and of the top-level
compile). -/
def compile_stmts : Nat → List Ast → CompCtx → CompCtx
  | 0, _, ctx => ctx
  | _ + 1, [], ctx => ctx
  | fuel + 1, s :: rest, ctx => compile_stmts fuel rest (compile_stmt fuel s ctx)

/-- compile_block: a scoped statement list. -/
def compile_block : Nat → List Ast → CompCtx → CompCtx
  | 0, _, ctx => ctx
  | fuel + 1, stmts, ctx =>
    let ctx := modCur ctx begin_scope
    let ctx := compile_stmts fuel stmts ctx
    modCur ctx end_scope

/-- compile_fn: like compile_closure but named; the closure value is
stored as a global at top level, as the newest local otherwise. -/
def compile_fn : Nat → String → List String → Ast → CompCtx → CompCtx
  | 0, _, _, _, ctx => ctx
  | fuel + 1, name, params, body, ctx =>
    match ctx.comps with
    | [] => ctx
    | c :: up =>
      let pa := alloc_register c
      let fn_reg := pa.fst
      let c := pa.snd
      let pr :=
        if c.scope_depth > 0 then declare_local c name false else (c, [])
      let ctx := { ctx with comps := pr.fst :: up, diags := ctx.diags ++ pr.snd }
      let inner0 := compiler_init (some name)
      let inner0 := { inner0 with arity := params.length }
      let inner0 := begin_scope inner0
      let pp := params.foldl
        (fun (acc : Compiler × List Diag) pname =>
          let r := declare_local acc.fst pname false
          (r.fst, acc.snd ++ r.snd))
        (inner0, [])
      let inner0 := { pp.fst with register_count := pp.fst.locals.length }
      let ctx := { ctx with comps := inner0 :: ctx.comps, diags := ctx.diags ++ pp.snd }
      let ctx := compile_stmt fuel body ctx
      let ctx := ctx_emit (ctx_emit ctx OP_RET) 0
      let ctx := modCur ctx end_scope
      match ctx.comps with
      | [] => ctx
      | inner :: restComps =>
        let proto : FunctionProto :=
          { code := inner.code, constants := inner.constants, arity := inner.arity,
            upvalue_descs := inner.upvalue_descs, name := inner.name }
        let pid := ctx.pool.length
        let ctx := { ctx with comps := restComps, pool := ctx.pool ++ [proto] }
        match ctx.comps with
        | [] => ctx
        | c2 :: up2 =>
          let rc := add_constant c2 (Value.closure pid)
          let c2 := emit_byte (emit_byte (emit_byte (emit_op rc.snd OP_CLOSURE) rc.fst) fn_reg)
            inner.upvalue_descs.length
          let c2 := inner.upvalue_descs.foldl
            (fun cc d => emit_byte (emit_byte cc (if d.fst then 1 else 0)) d.snd) c2
          if c2.scope_depth = 0 then
            let q := string_intern ctx.strings name
            let rn := add_constant c2 (Value.str q.fst)
            let c2 := emit_byte (emit_byte (emit_op rn.snd OP_STORE_GLOBAL) rn.fst) fn_reg
            { ctx with comps := free_register c2 :: up2, strings := q.snd }
          else
            let local_idx := c2.locals.length - 1
            let c2 := emit_byte (emit_byte (emit_op c2 OP_STORE_LOCAL) local_idx) fn_reg
            { ctx with comps := free_register c2 :: up2 }

/-- compile_stmt dispatch; the default arm compiles the node as an
expression statement and frees its register. -/
def compile_stmt : Nat → Ast → CompCtx → CompCtx
  | 0, _, ctx => ctx
  | fuel + 1, ast, ctx =>
    match ast with
    | .letD n m i => compile_let fuel n m i ctx
    | .assign _ _ => compile_assign fuel ast ctx
    | .assignIdx _ _ _ => compile_assign fuel ast ctx
    | .ifS c t e => compile_if fuel c t e ctx
    | .whileS c b => compile_while fuel c b ctx
    | .forS v it b => compile_for fuel v it b ctx
    | .loopS b => compile_loop fuel b ctx
    | .breakS => compile_break ctx
    | .returnS v => compile_return fuel v ctx
    | .block stmts => compile_block fuel stmts ctx
    | .fnD n ps b => compile_fn fuel n ps b ctx
    | _ =>
      let p := compile_expr fuel ast ctx
      modCur p.snd free_register

end

/-- The public compile entry of src/unnamed/part_001: a fresh top-level
compiler named main, statement-by-statement compilation of the
program block, and a final RET 0.  The C function never returns NULL.
Returns the final compilation context; the root prototype is the head
compiler. -/
def compile (fuel : Nat) (ast : Ast) (strings0 : List String)
    (pool0 : List FunctionProto) : CompCtx :=
  let ctx : CompCtx :=
    { comps := [compiler_init (some "<main>")], pool := pool0, strings := strings0, diags := [] }
  let ctx :=
    match ast with
    | Ast.block stmts => compile_stmts fuel stmts ctx
    | _ => ctx
  ctx_emit (ctx_emit ctx OP_RET) 0

/-- The root prototype produced by compile. -/
def root_proto (ctx : CompCtx) : FunctionProto :=
  let c := ctx.comps.headD defaultCompiler
  { code := c.code, constants := c.constants, arity := c.arity,
    upvalue_descs := c.upvalue_descs, name := c.name }

/-! ### Lexer (src/lexer.c)

Source text becomes a character list with an implicit NUL sentinel at
the end (reads past the end yield NUL, like the C terminator). -/

inductive TokenType where
  | TOK_INT | TOK_FLOAT | TOK_STRING | TOK_TRUE | TOK_FALSE | TOK_NONE
  | TOK_IDENT
  | TOK_LET | TOK_MUT | TOK_FN | TOK_RETURN | TOK_IF | TOK_ELSE
  | TOK_WHILE | TOK_FOR | TOK_IN | TOK_LOOP | TOK_BREAK | TOK_MATCH
  | TOK_PLUS | TOK_MINUS | TOK_STAR | TOK_SLASH | TOK_PERCENT
  | TOK_EQ | TOK_NE | TOK_LT | TOK_LE | TOK_GT | TOK_GE
  | TOK_ASSIGN | TOK_ARROW | TOK_PIPE
  | TOK_LPAREN | TOK_RPAREN | TOK_LBRACE | TOK_RBRACE
  | TOK_LBRACKET | TOK_RBRACKET
  | TOK_COMMA | TOK_DOT | TOK_COLON | TOK_SEMICOLON
  | TOK_RARROW
  | TOK_EOF | TOK_ERROR
  deriving Repr, DecidableEq

/-- Token: type, lexeme text (for TOK_ERROR from error_token the text
is the diagnostic message instead, as in the source), line. -/
structure Token where
  type : TokenType
  text : String
  line : Nat
  deriving Repr, DecidableEq

def lex_peek (src : List Char) (i : Nat) : Char :=
  src.getD i (Char.ofNat 0)

def lex_at_end (src : List Char) (i : Nat) : Bool :=
  lex_peek src i = Char.ofNat 0

/-- isdigit of ctype.h under the C locale. -/
def is_digit (ch : Char) : Bool :=
  decide ('0' ≤ ch) && decide (ch ≤ '9')

/-- isalpha of ctype.h under the C locale. -/
def is_alpha (ch : Char) : Bool :=
  (decide ('a' ≤ ch) && decide (ch ≤ 'z')) || (decide ('A' ≤ ch) && decide (ch ≤ 'Z'))

/-- The comment arm of skip_whitespace: run to the newline or the end. -/
def skip_comment : Nat → List Char → Nat → Nat
  | 0, _, i => i
  | fuel + 1, src, i =>
    if lex_peek src i ≠ Char.ofNat 10 ∧ !(lex_at_end src i) then skip_comment fuel src (i + 1)
    else i

/-- skip_whitespace: blanks, carriage return, tab; newline bumps the
line counter; a double slash discards the rest of the line. -/
def skip_whitespace : Nat → List Char → Nat → Nat → Nat × Nat
  | 0, _, i, line => (i, line)
  | fuel + 1, src, i, line =>
    let ch := lex_peek src i
    if ch = ' ' ∨ ch = Char.ofNat 13 ∨ ch = Char.ofNat 9 then
      skip_whitespace fuel src (i + 1) line
    else if ch = Char.ofNat 10 then
      skip_whitespace fuel src (i + 1) (line + 1)
    else if ch = '/' then
      if lex_peek src (i + 1) = '/' then
        skip_whitespace fuel src (skip_comment (src.length + 1) src i) line
      else (i, line)
    else (i, line)

/-- The digit run of read_number / read_ident scans. -/
def scan_digits : Nat → List Char → Nat → Nat
  | 0, _, i => i
  | fuel + 1, src, i =>
    if is_digit (lex_peek src i) then scan_digits fuel src (i + 1) else i

/-- The identifier run of read_ident (alnum or underscore). -/
def scan_ident : Nat → List Char → Nat → Nat
  | 0, _, i => i
  | fuel + 1, src, i =>
    if is_alpha (lex_peek src i) ∨ is_digit (lex_peek src i) ∨ lex_peek src i = '_' then
      scan_ident fuel src (i + 1)
    else i

/-- The body scan of read_string: run to the closing quote or the end,
counting newlines. -/
def scan_string_loop : Nat → List Char → Nat → Nat → Nat × Nat
  | 0, _, i, line => (i, line)
  | fuel + 1, src, i, line =>
    if lex_peek src i ≠ '"' ∧ !(lex_at_end src i) then
      let line := if lex_peek src i = Char.ofNat 10 then line + 1 else line
      scan_string_loop fuel src (i + 1) line
    else (i, line)

/-- check_keyword of src/lexer.c on the already-scanned lexeme. -/
def check_keyword (lexeme : List Char) (start length : Nat) (rest : List Char)
    (t : TokenType) : TokenType :=
  if lexeme.length = start + length ∧ lexeme.drop start = rest then t
  else TokenType.TOK_IDENT

/-- ident_type of src/lexer.c: keyword dispatch keyed on the first one
or two characters.  Note the source quirks kept here: any identifier
beginning with "fn", "if" or "in" and longer than one character is the
keyword itself without checking the remainder. -/
def ident_type (lexeme : List Char) : TokenType :=
  let c0 := lex_peek lexeme 0
  if c0 = 'b' then check_keyword lexeme 1 4 ("reak".toList) TokenType.TOK_BREAK
  else if c0 = 'e' then check_keyword lexeme 1 3 ("lse".toList) TokenType.TOK_ELSE
  else if c0 = 'f' then
    if lexeme.length > 1 then
      let c1 := lex_peek lexeme 1
      if c1 = 'a' then check_keyword lexeme 2 3 ("lse".toList) TokenType.TOK_FALSE
      else if c1 = 'n' then TokenType.TOK_FN
      else if c1 = 'o' then check_keyword lexeme 2 1 ("r".toList) TokenType.TOK_FOR
      else TokenType.TOK_IDENT
    else TokenType.TOK_IDENT
  else if c0 = 'i' then
    if lexeme.length > 1 then
      let c1 := lex_peek lexeme 1
      if c1 = 'f' then TokenType.TOK_IF
      else if c1 = 'n' then TokenType.TOK_IN
      else TokenType.TOK_IDENT
    else TokenType.TOK_IDENT
  else if c0 = 'l' then
    if lexeme.length > 1 then
      let c1 := lex_peek lexeme 1
      if c1 = 'e' then check_keyword lexeme 2 1 ("t".toList) TokenType.TOK_LET
      else if c1 = 'o' then check_keyword lexeme 2 2 ("op".toList) TokenType.TOK_LOOP
      else TokenType.TOK_IDENT
    else TokenType.TOK_IDENT
  else if c0 = 'm' then
    if lexeme.length > 1 then
      let c1 := lex_peek lexeme 1
      if c1 = 'a' then check_keyword lexeme 2 3 ("tch".toList) TokenType.TOK_MATCH
      else if c1 = 'u' then check_keyword lexeme 2 1 ("t".toList) TokenType.TOK_MUT
      else TokenType.TOK_IDENT
    else TokenType.TOK_IDENT
  else if c0 = 'r' then check_keyword lexeme 1 5 ("eturn".toList) TokenType.TOK_RETURN
  else if c0 = 't' then check_keyword lexeme 1 3 ("rue".toList) TokenType.TOK_TRUE
  else if c0 = 'w' then check_keyword lexeme 1 4 ("hile".toList) TokenType.TOK_WHILE
  else if c0 = 'N' then check_keyword lexeme 1 3 ("one".toList) TokenType.TOK_NONE
  else TokenType.TOK_IDENT

/-- The lexeme between two positions, as a String. -/
def lexeme_text (src : List Char) (from_ to_ : Nat) : String :=
  String.mk ((src.drop from_).take (to_ - from_))

/-- next_token of src/lexer.c: returns the token plus the new current
position and line. -/
def next_token (src : List Char) (current line : Nat) : Token × Nat × Nat :=
  let fuel := src.length + 1
  let w := skip_whitespace fuel src current line
  let i := w.fst
  let ln := w.snd
  let mk : TokenType → Nat → Token × Nat × Nat := fun t j =>
    ({ type := t, text := lexeme_text src i j, line := ln }, j, ln)
  if lex_at_end src i then mk TokenType.TOK_EOF i
  else
    let ch := lex_peek src i
    let i1 := i + 1
    if is_digit ch then
      let j := scan_digits fuel src i1
      if lex_peek src j = '.' ∧ is_digit (lex_peek src (j + 1)) then
        mk TokenType.TOK_FLOAT (scan_digits fuel src (j + 1))
      else mk TokenType.TOK_INT j
    else if is_alpha ch ∨ ch = '_' then
      let j := scan_ident fuel src i1
      mk (ident_type ((src.drop i).take (j - i))) j
    else if ch = '(' then mk TokenType.TOK_LPAREN i1
    else if ch = ')' then mk TokenType.TOK_RPAREN i1
    else if ch = Char.ofNat 123 then mk TokenType.TOK_LBRACE i1
    else if ch = Char.ofNat 125 then mk TokenType.TOK_RBRACE i1
    else if ch = '[' then mk TokenType.TOK_LBRACKET i1
    else if ch = ']' then mk TokenType.TOK_RBRACKET i1
    else if ch = ',' then mk TokenType.TOK_COMMA i1
    else if ch = '.' then mk TokenType.TOK_DOT i1
    else if ch = ':' then mk TokenType.TOK_COLON i1
    else if ch = ';' then mk TokenType.TOK_SEMICOLON i1
    else if ch = '+' then mk TokenType.TOK_PLUS i1
    else if ch = '*' then mk TokenType.TOK_STAR i1
    else if ch = '%' then mk TokenType.TOK_PERCENT i1
    else if ch = '|' then mk TokenType.TOK_PIPE i1
    else if ch = '-' then
      if lex_peek src i1 = '>' then mk TokenType.TOK_ARROW (i1 + 1)
      else mk TokenType.TOK_MINUS i1
    else if ch = '/' then mk TokenType.TOK_SLASH i1
    else if ch = '=' then
      if lex_peek src i1 = '=' then mk TokenType.TOK_EQ (i1 + 1)
      else if lex_peek src i1 = '>' then mk TokenType.TOK_RARROW (i1 + 1)
      else mk TokenType.TOK_ASSIGN i1
    else if ch = '!' then
      if lex_peek src i1 = '=' then mk TokenType.TOK_NE (i1 + 1)
      else mk TokenType.TOK_ERROR i1
    else if ch = '<' then
      if lex_peek src i1 = '=' then mk TokenType.TOK_LE (i1 + 1)
      else mk TokenType.TOK_LT i1
    else if ch = '>' then
      if lex_peek src i1 = '=' then mk TokenType.TOK_GE (i1 + 1)
      else mk TokenType.TOK_GT i1
    else if ch = '"' then
      let s := scan_string_loop fuel src i1 ln
      if lex_at_end src s.fst then
        ({ type := TokenType.TOK_ERROR, text := "unterminated string", line := s.snd },
         s.fst, s.snd)
      else
        ({ type := TokenType.TOK_STRING, text := lexeme_text src i (s.fst + 1),
           line := s.snd }, s.fst + 1, s.snd)
    else
      ({ type := TokenType.TOK_ERROR, text := "unexpected character", line := ln }, i1, ln)

/-- Repeated next_token until EOF.  The C lexer is pulled lazily by the
parser, but it is a pure function of the position, so the precomputed
stream is the same sequence. -/
def tokenize_loop : Nat → List Char → Nat → Nat → List Token
  | 0, _, _, _ => []
  | fuel + 1, src, current, line =>
    let r := next_token src current line
    match r.fst.type with
    | TokenType.TOK_EOF => [r.fst]
    | _ => r.fst :: tokenize_loop fuel src r.snd.fst r.snd.snd

def tokenize (source : String) : List Token :=
  tokenize_loop (source.length + 1) source.toList 0 1

/-! ### Parser (src/parser.c) -/

def eofToken : Token := { type := TokenType.TOK_EOF, text := "", line := 0 }

/-- Parser state: the precomputed token stream plus the C fields.
Errors print to stderr (the diags list). -/
structure Parser where
  toks : List Token
  pos : Nat
  current : Token
  previous : Token
  had_error : Bool
  panic_mode : Bool
  diags : List Diag

/-- Pulling one more token from the lexer (past the end the C lexer
keeps yielding EOF at the final position). -/
def parser_pull (p : Parser) : Token :=
  p.toks.getD p.pos (p.toks.getLastD eofToken)

/-- error_at: reports once, then panic mode suppresses the rest. -/
def error_at (p : Parser) (tok : Token) (message : String) : Parser :=
  if p.panic_mode then p
  else { p with panic_mode := true, had_error := true,
                diags := p.diags ++ [Diag.parseError tok.line message] }

/-- error (at the previous token). -/
def perror (p : Parser) (message : String) : Parser :=
  error_at p p.previous message

/-- error_current (at the current token). -/
def error_current (p : Parser) (message : String) : Parser :=
  error_at p p.current message

/-- The pull loop of advance: error tokens are reported (their text is
the message) and skipped. -/
def parser_advance_loop : Nat → Parser → Parser
  | 0, p => p
  | fuel + 1, p =>
    let tok := parser_pull p
    let p := { p with current := tok, pos := p.pos + 1 }
    if tok.type = TokenType.TOK_ERROR then
      parser_advance_loop fuel (error_current p tok.text)
    else p

/-- advance of src/parser.c. -/
def parser_advance (p : Parser) : Parser :=
  parser_advance_loop (p.toks.length + 1) { p with previous := p.current }

/-- check. -/
def pcheck (p : Parser) (t : TokenType) : Bool :=
  p.current.type = t

/-- match (consume on success). -/
def pmatch (p : Parser) (t : TokenType) : Bool × Parser :=
  if pcheck p t then (true, parser_advance p) else (false, p)

/-- consume: advance on the expected type, error otherwise. -/
def pconsume (p : Parser) (t : TokenType) (message : String) : Parser :=
  if p.current.type = t then parser_advance p else error_current p message

/-- Base-10 digit accumulation (the loop inside strtol/strtof). -/
def digits_to_nat (l : List Char) : Nat :=
  l.foldl (fun n c => n * 10 + (c.toNat - 48)) 0

/-- strtol on an all-digit lexeme. -/
def parse_int_text (s : String) : Int :=
  (digits_to_nat s.toList : Int)

/-- strtof on a digits.digits lexeme, exact as a rational. -/
def parse_float_text (s : String) : Rat :=
  let l := s.toList
  let ip := l.takeWhile (fun c => c ≠ '.')
  let fp := (l.dropWhile (fun c => c ≠ '.')).drop 1
  (digits_to_nat ip : Rat) + (digits_to_nat fp : Rat) / ((10 : Rat) ^ fp.length)

def PREC_NONE : Nat := 0
def PREC_ASSIGNMENT : Nat := 1
def PREC_OR : Nat := 2
def PREC_AND : Nat := 3
def PREC_EQUALITY : Nat := 4
def PREC_COMPARISON : Nat := 5
def PREC_TERM : Nat := 6
def PREC_FACTOR : Nat := 7
def PREC_UNARY : Nat := 8
def PREC_CALL : Nat := 9
def PREC_PRIMARY : Nat := 10

mutual

/-- parse_primary of src/parser.c. -/
def parse_primary : Nat → Parser → Ast × Parser
  | 0, p => (Ast.noneLit, p)
  | fuel + 1, p =>
    let m := pmatch p TokenType.TOK_INT
    if m.fst then (Ast.intLit (parse_int_text m.snd.previous.text), m.snd)
    else
    let m := pmatch p TokenType.TOK_FLOAT
    if m.fst then (Ast.floatLit (parse_float_text m.snd.previous.text), m.snd)
    else
    let m := pmatch p TokenType.TOK_TRUE
    if m.fst then (Ast.boolLit true, m.snd)
    else
    let m := pmatch p TokenType.TOK_FALSE
    if m.fst then (Ast.boolLit false, m.snd)
    else
    let m := pmatch p TokenType.TOK_NONE
    if m.fst then (Ast.noneLit, m.snd)
    else
    let m := pmatch p TokenType.TOK_STRING
    if m.fst then
      -- new_string(token.start + 1, token.length - 2): strip the quotes
      let t := m.snd.previous.text
      (Ast.strLit (String.mk (t.toList.drop 1 |>.take (t.length - 2))), m.snd)
    else
    let m := pmatch p TokenType.TOK_IDENT
    if m.fst then (Ast.ident m.snd.previous.text, m.snd)
    else
    let m := pmatch p TokenType.TOK_LPAREN
    if m.fst then
      let r := parse_expr fuel m.snd
      (r.fst, pconsume r.snd TokenType.TOK_RPAREN "expected close paren after expression")
    else
    let m := pmatch p TokenType.TOK_LBRACKET
    if m.fst then
      let p := m.snd
      if pcheck p TokenType.TOK_RBRACKET then
        (Ast.arrayLit [], pconsume p TokenType.TOK_RBRACKET "expected close bracket after array elements")
      else
        let r := parse_array_elems fuel p
        (Ast.arrayLit r.fst,
         pconsume r.snd TokenType.TOK_RBRACKET "expected close bracket after array elements")
    else
    let m := pmatch p TokenType.TOK_PIPE
    if m.fst then
      let p := m.snd
      let pr :=
        if pcheck p TokenType.TOK_PIPE then (([] : List String), p)
        else parse_param_list fuel p
      let p := pconsume pr.snd TokenType.TOK_PIPE "expected pipe after parameters"
      let mb := pmatch p TokenType.TOK_LBRACE
      if mb.fst then
        let b := parse_block fuel mb.snd
        (Ast.closureE pr.fst b.fst, b.snd)
      else
        let b := parse_expr fuel p
        (Ast.closureE pr.fst b.fst, b.snd)
    else
      (Ast.noneLit, perror p "expected expression")

/-- The do-while element loop of the array literal. -/
def parse_array_elems : Nat → Parser → List Ast × Parser
  | 0, p => ([], p)
  | fuel + 1, p =>
    let e := parse_expr fuel p
    let m := pmatch e.snd TokenType.TOK_COMMA
    if m.fst then
      let r := parse_array_elems fuel m.snd
      (e.fst :: r.fst, r.snd)
    else ([e.fst], m.snd)

/-- The do-while parameter loop of closure literals and fn
declarations (consume IDENT then previous.text, comma-separated). -/
def parse_param_list : Nat → Parser → List String × Parser
  | 0, p => ([], p)
  | fuel + 1, p =>
    let p := pconsume p TokenType.TOK_IDENT "expected parameter name"
    let name := p.previous.text
    let m := pmatch p TokenType.TOK_COMMA
    if m.fst then
      let r := parse_param_list fuel m.snd
      (name :: r.fst, r.snd)
    else ([name], m.snd)

/-- The do-while argument loop of a call. -/
def parse_arg_list : Nat → Parser → List Ast × Parser
  | 0, p => ([], p)
  | fuel + 1, p =>
    let e := parse_expr fuel p
    let m := pmatch e.snd TokenType.TOK_COMMA
    if m.fst then
      let r := parse_arg_list fuel m.snd
      (e.fst :: r.fst, r.snd)
    else ([e.fst], m.snd)

/-- The method loop of an iterator chain: `.NAME ( arg [, seed] )`
repeated; a fold's second argument is parsed and discarded, as in the
source. -/
def parse_chain_methods : Nat → Parser → List (String × Ast) × Parser
  | 0, p => ([], p)
  | fuel + 1, p =>
    let m := pmatch p TokenType.TOK_DOT
    if !m.fst then ([], m.snd)
    else
      let p := pconsume m.snd TokenType.TOK_IDENT "expected method name"
      let method := p.previous.text
      let p := pconsume p TokenType.TOK_LPAREN "expected open paren after method"
      let a :=
        if pcheck p TokenType.TOK_PIPE then parse_primary fuel p
        else parse_expr fuel p
      let p :=
        if method = "fold" then
          let p := pconsume a.snd TokenType.TOK_COMMA "expected second argument to fold"
          (parse_primary fuel p).snd
        else a.snd
      let p := pconsume p TokenType.TOK_RPAREN "expected close paren after arguments"
      let r := parse_chain_methods fuel p
      ((method, a.fst) :: r.fst, r.snd)

/-- The postfix loop of parse_postfix: calls, index, and dot-method
chains starting with iter(). -/
def parse_postfix_loop : Nat → Ast → Parser → Ast × Parser
  | 0, e, p => (e, p)
  | fuel + 1, e, p =>
    let m := pmatch p TokenType.TOK_LPAREN
    if m.fst then
      let p := m.snd
      if pcheck p TokenType.TOK_RPAREN then
        let p := pconsume p TokenType.TOK_RPAREN "expected close paren after arguments"
        parse_postfix_loop fuel (Ast.call e []) p
      else
        let r := parse_arg_list fuel p
        let p := pconsume r.snd TokenType.TOK_RPAREN "expected close paren after arguments"
        parse_postfix_loop fuel (Ast.call e r.fst) p
    else
      let m := pmatch p TokenType.TOK_LBRACKET
      if m.fst then
        let r := parse_expr fuel m.snd
        let p := pconsume r.snd TokenType.TOK_RBRACKET "expected close bracket after index"
        parse_postfix_loop fuel (Ast.indexE e r.fst) p
      else
        let m := pmatch p TokenType.TOK_DOT
        if m.fst then
          let p := pconsume m.snd TokenType.TOK_IDENT "expected method name after dot"
          let method := p.previous.text
          if method = "iter" then
            let p := pconsume p TokenType.TOK_LPAREN "expected open paren after iter"
            let p := pconsume p TokenType.TOK_RPAREN "expected close paren after iter"
            let r := parse_chain_methods fuel p
            parse_postfix_loop fuel (Ast.iterChain e r.fst) r.snd
          else
            parse_postfix_loop fuel e (perror p "unknown method")
        else (e, p)

/-- parse_postfix. -/
def parse_postfix : Nat → Parser → Ast × Parser
  | 0, p => (Ast.noneLit, p)
  | fuel + 1, p =>
    let e := parse_primary fuel p
    parse_postfix_loop fuel e.fst e.snd

/-- parse_unary: prefix minus only. -/
def parse_unary : Nat → Parser → Ast × Parser
  | 0, p => (Ast.noneLit, p)
  | fuel + 1, p =>
    let m := pmatch p TokenType.TOK_MINUS
    if m.fst then
      let r := parse_unary fuel m.snd
      (Ast.unary "-" r.fst, r.snd)
    else parse_postfix fuel p

/-- The operator loop of parse_binary. -/
def parse_binary_loop : Nat → Nat → Ast → Parser → Ast × Parser
  | 0, _, left, p => (left, p)
  | fuel + 1, prec, left, p =>
    if prec ≤ PREC_FACTOR ∧
        (pcheck p TokenType.TOK_STAR ∨ pcheck p TokenType.TOK_SLASH ∨
         pcheck p TokenType.TOK_PERCENT) then
      let p := parser_advance p
      let op := if p.previous.type = TokenType.TOK_STAR then "*"
        else if p.previous.type = TokenType.TOK_SLASH then "/" else "%"
      let r := parse_binary fuel (PREC_FACTOR + 1) p
      parse_binary_loop fuel prec (Ast.binary op left r.fst) r.snd
    else if prec ≤ PREC_TERM ∧
        (pcheck p TokenType.TOK_PLUS ∨ pcheck p TokenType.TOK_MINUS) then
      let p := parser_advance p
      let op := if p.previous.type = TokenType.TOK_PLUS then "+" else "-"
      let r := parse_binary fuel (PREC_TERM + 1) p
      parse_binary_loop fuel prec (Ast.binary op left r.fst) r.snd
    else if prec ≤ PREC_COMPARISON ∧
        (pcheck p TokenType.TOK_LT ∨ pcheck p TokenType.TOK_LE ∨
         pcheck p TokenType.TOK_GT ∨ pcheck p TokenType.TOK_GE) then
      let p := parser_advance p
      let op := if p.previous.type = TokenType.TOK_LT then "<"
        else if p.previous.type = TokenType.TOK_LE then "<="
        else if p.previous.type = TokenType.TOK_GT then ">" else ">="
      let r := parse_binary fuel (PREC_COMPARISON + 1) p
      parse_binary_loop fuel prec (Ast.binary op left r.fst) r.snd
    else if prec ≤ PREC_EQUALITY ∧
        (pcheck p TokenType.TOK_EQ ∨ pcheck p TokenType.TOK_NE) then
      let p := parser_advance p
      let op := if p.previous.type = TokenType.TOK_EQ then "==" else "!="
      let r := parse_binary fuel (PREC_EQUALITY + 1) p
      parse_binary_loop fuel prec (Ast.binary op left r.fst) r.snd
    else (left, p)

/-- parse_binary with precedence climbing. -/
def parse_binary : Nat → Nat → Parser → Ast × Parser
  | 0, _, p => (Ast.noneLit, p)
  | fuel + 1, prec, p =>
    if prec ≥ PREC_UNARY then parse_unary fuel p
    else
      let l := parse_binary fuel (prec + 1) p
      parse_binary_loop fuel prec l.fst l.snd

/-- parse_expr. -/
def parse_expr : Nat → Parser → Ast × Parser
  | 0, p => (Ast.noneLit, p)
  | fuel + 1, p => parse_binary fuel PREC_ASSIGNMENT p

/-- The statement loop of parse_block. -/
def parse_block_stmts : Nat → Parser → List Ast × Parser
  | 0, p => ([], p)
  | fuel + 1, p =>
    if !(pcheck p TokenType.TOK_RBRACE) ∧ !(pcheck p TokenType.TOK_EOF) then
      let s := parse_stmt fuel p
      let r := parse_block_stmts fuel s.snd
      (s.fst :: r.fst, r.snd)
    else ([], p)

/-- parse_block: statements to the closing brace. -/
def parse_block : Nat → Parser → Ast × Parser
  | 0, p => (Ast.block [], p)
  | fuel + 1, p =>
    let r := parse_block_stmts fuel p
    (Ast.block r.fst, pconsume r.snd TokenType.TOK_RBRACE "expected close brace after block")

/-- parse_stmt of src/parser.c. -/
def parse_stmt : Nat → Parser → Ast × Parser
  | 0, p => (Ast.noneLit, p)
  | fuel + 1, p =>
    let m := pmatch p TokenType.TOK_LET
    if m.fst then
      let p := m.snd
      let mm := pmatch p TokenType.TOK_MUT
      let is_mut := mm.fst
      let p := pconsume mm.snd TokenType.TOK_IDENT "expected variable name"
      let name := p.previous.text
      let p := pconsume p TokenType.TOK_ASSIGN "expected equals sign after variable name"
      let r := parse_expr fuel p
      (Ast.letD name is_mut r.fst, r.snd)
    else
    let m := pmatch p TokenType.TOK_LBRACE
    if m.fst then parse_block fuel m.snd
    else
    let m := pmatch p TokenType.TOK_FN
    if m.fst then
      let p := pconsume m.snd TokenType.TOK_IDENT "expected function name"
      let name := p.previous.text
      let p := pconsume p TokenType.TOK_LPAREN "expected open paren after function name"
      let pr :=
        if pcheck p TokenType.TOK_RPAREN then (([] : List String), p)
        else parse_param_list fuel p
      let p := pconsume pr.snd TokenType.TOK_RPAREN "expected close paren after parameters"
      let p := pconsume p TokenType.TOK_LBRACE "expected open brace before function body"
      let b := parse_block fuel p
      (Ast.fnD name pr.fst b.fst, b.snd)
    else
    let m := pmatch p TokenType.TOK_IF
    if m.fst then
      let c := parse_expr fuel m.snd
      let p := pconsume c.snd TokenType.TOK_LBRACE "expected open brace after if condition"
      let t := parse_block fuel p
      let me := pmatch t.snd TokenType.TOK_ELSE
      if me.fst then
        let p := pconsume me.snd TokenType.TOK_LBRACE "expected open brace after else"
        let e := parse_block fuel p
        (Ast.ifS c.fst t.fst (some e.fst), e.snd)
      else
        (Ast.ifS c.fst t.fst Option.none, me.snd)
    else
    let m := pmatch p TokenType.TOK_WHILE
    if m.fst then
      let c := parse_expr fuel m.snd
      let p := pconsume c.snd TokenType.TOK_LBRACE "expected open brace after while condition"
      let b := parse_block fuel p
      (Ast.whileS c.fst b.fst, b.snd)
    else
    let m := pmatch p TokenType.TOK_FOR
    if m.fst then
      let p := pconsume m.snd TokenType.TOK_IDENT "expected variable name"
      let var := p.previous.text
      let p := pconsume p TokenType.TOK_IN "expected in after for variable"
      let it := parse_expr fuel p
      let p := pconsume it.snd TokenType.TOK_LBRACE "expected open brace after for iterable"
      let b := parse_block fuel p
      (Ast.forS var it.fst b.fst, b.snd)
    else
    let m := pmatch p TokenType.TOK_LOOP
    if m.fst then
      let p := pconsume m.snd TokenType.TOK_LBRACE "expected open brace after loop"
      let b := parse_block fuel p
      (Ast.loopS b.fst, b.snd)
    else
    let m := pmatch p TokenType.TOK_BREAK
    if m.fst then (Ast.breakS, m.snd)
    else
    let m := pmatch p TokenType.TOK_RETURN
    if m.fst then
      let p := m.snd
      if !(pcheck p TokenType.TOK_RBRACE) ∧ !(pcheck p TokenType.TOK_EOF) then
        let r := parse_expr fuel p
        (Ast.returnS r.fst, r.snd)
      else (Ast.returnS Ast.noneLit, p)
    else
      let e := parse_expr fuel p
      let m := pmatch e.snd TokenType.TOK_ASSIGN
      if m.fst then
        match e.fst with
        | Ast.ident name =>
          let v := parse_expr fuel m.snd
          (Ast.assign name v.fst, v.snd)
        | Ast.indexE a i =>
          let v := parse_expr fuel m.snd
          (Ast.assignIdx a i v.fst, v.snd)
        | other => (other, perror m.snd "invalid assignment target")
      else (e.fst, m.snd)

end

/-- The panic-mode resynchronisation scan at the top level of parse.
Returns the parser plus whether the scan hit a synchronising keyword:
in the source that branch clears panic mode and RETURNS the program
immediately, bypassing the final had_error check. -/
def parse_resync : Nat → Parser → Parser × Bool
  | 0, p => (p, false)
  | fuel + 1, p =>
    if p.current.type = TokenType.TOK_EOF then (p, false)
    else if p.previous.type = TokenType.TOK_SEMICOLON then (p, false)
    else if p.current.type = TokenType.TOK_FN ∨ p.current.type = TokenType.TOK_LET ∨
            p.current.type = TokenType.TOK_IF ∨ p.current.type = TokenType.TOK_WHILE ∨
            p.current.type = TokenType.TOK_FOR ∨ p.current.type = TokenType.TOK_RETURN then
      ({ p with panic_mode := false }, true)
    else parse_resync fuel (parser_advance p)

/-- The top-level statement loop of parse. -/
def parse_top_loop : Nat → List Ast → Parser → Option Ast × Parser
  | 0, stmts, p => (some (Ast.block stmts), p)
  | fuel + 1, stmts, p =>
    let m := pmatch p TokenType.TOK_EOF
    if m.fst then
      (if m.snd.had_error then Option.none else some (Ast.block stmts), m.snd)
    else
      let s := parse_stmt fuel m.snd
      let stmts := stmts ++ [s.fst]
      let p := s.snd
      if p.panic_mode then
        let r := parse_resync fuel p
        if r.snd then (some (Ast.block stmts), r.fst)
        else parse_top_loop fuel stmts r.fst
      else parse_top_loop fuel stmts p

/-- parse of src/parser.c: None models the NULL failure sentinel.  The
collected stderr diagnostics are returned alongside. -/
def parse (fuel : Nat) (source : String) : Option Ast × List Diag :=
  let toks := tokenize source
  let p : Parser :=
    { toks := toks, pos := 0, current := eofToken, previous := eofToken,
      had_error := false, panic_mode := false, diags := [] }
  let p := parser_advance p
  let r := parse_top_loop fuel [] p
  (r.fst, r.snd.diags)

/-- mica_compile of src/vm.c: parse, compile, wrap the root prototype
in an upvalue-free closure and push a top-level frame at base 0. -/
def mica_compile (fuel : Nat) (vm : VMState) (source : String) : Bool × VMState :=
  let pr := parse fuel source
  let vm := { vm with diags := vm.diags ++ pr.snd }
  match pr.fst with
  | Option.none => (false, vm)
  | some ast =>
    let ctx := compile fuel ast vm.strings vm.protos
    let rootPid := ctx.pool.length
    let vm := { vm with
      strings := ctx.strings,
      diags := vm.diags ++ ctx.diags,
      protos := ctx.pool ++ [root_proto ctx] }
    let cid := vm.closures.length
    let top : ClosureObj := { protoId := rootPid, upvalues := [] }
    let vm := { vm with closures := vm.closures ++ [top] }
    let frame : CallFrame := { closureId := cid, ip := 0, base := 0, return_register := 0 }
    (true, { vm with frames := frame :: vm.frames })

/-! ### Concrete machine states used by the theorems below -/

/-- A machine about to execute OP_EQ on registers holding the i32 1 and
the f32 1.0 (then return). -/
def eq_mixed_vm : VMState :=
  { mica_new with
    protos := [{ code := [OP_EQ, 0, 1, 2, OP_RET, 0], constants := [], arity := 0,
                 upvalue_descs := [], name := Option.none }],
    closures := [{ protoId := 0, upvalues := [] }],
    frames := [{ closureId := 0, ip := 0, base := 0, return_register := 0 }],
    registers := ((List.replicate MAX_REGISTERS Value.none).set 0
      (Value.i32 1)).set 1 (Value.f32 1) }

/-- A machine about to CALL (with 0 arguments) the closure in register 0,
while register 33 still holds a leftover i32 7.  The new frame's window
starts at register 1, so register 33 is window index 32 of the callee. -/
def call_window_vm : VMState :=
  { mica_new with
    protos := [{ code := [OP_CALL, 0, 0, 0], constants := [], arity := 0,
                 upvalue_descs := [], name := Option.none },
               { code := [OP_RET, 0], constants := [], arity := 0,
                 upvalue_descs := [], name := Option.none }],
    closures := [{ protoId := 0, upvalues := [] },
                 { protoId := 1, upvalues := [] }],
    frames := [{ closureId := 0, ip := 0, base := 0, return_register := 0 }],
    registers := ((List.replicate MAX_REGISTERS Value.none).set 0
      (Value.closure 1)).set 33 (Value.i32 7) }

/-- A machine whose next instruction is LOAD_GLOBAL of the name "g",
with an arbitrary register file, globals table, native registry and
diagnostics log; used to instantiate the amended C2 theorem. -/
def load_global_vm (regs : List Value) (globals : List (Nat × Value))
    (natives : List (String × NativeFn)) (dg : List Diag) (b : Nat) : VMState :=
  { mica_new with
    protos := [{ code := [OP_LOAD_GLOBAL, 0, 1, OP_RET, 0], constants := [Value.str 0],
                 arity := 0, upvalue_descs := [], name := Option.none }],
    closures := [{ protoId := 0, upvalues := [] }],
    frames := [{ closureId := 0, ip := 0, base := b, return_register := 0 }],
    strings := ["g"],
    registers := regs,
    globals := globals,
    natives := natives,
    diags := dg }

/-- A machine about to execute OP_ARRAY_GET (registers: array in 1,
index in 2, destination 3) over an arbitrary array object and index. -/
def array_get_vm (arr : CArray) (i : Int) : VMState :=
  { mica_new with
    protos := [{ code := [OP_ARRAY_GET, 1, 2, 3, OP_RET, 0], constants := [], arity := 0,
                 upvalue_descs := [], name := Option.none }],
    closures := [{ protoId := 0, upvalues := [] }],
    frames := [{ closureId := 0, ip := 0, base := 0, return_register := 0 }],
    arrays := [arr],
    registers := Value.none :: Value.arr 0 :: Value.i32 i ::
      List.replicate (MAX_REGISTERS - 3) Value.none }

/-- Like array_get_vm but for OP_ARRAY_SET (array in 1, index in 2,
value register 3 holding v). -/
def array_set_vm (arr : CArray) (i : Int) (v : Value) : VMState :=
  { mica_new with
    protos := [{ code := [OP_ARRAY_SET, 1, 2, 3, OP_RET, 0], constants := [], arity := 0,
                 upvalue_descs := [], name := Option.none }],
    closures := [{ protoId := 0, upvalues := [] }],
    frames := [{ closureId := 0, ip := 0, base := 0, return_register := 0 }],
    arrays := [arr],
    registers := Value.none :: Value.arr 0 :: Value.i32 i :: v ::
      List.replicate (MAX_REGISTERS - 4) Value.none }

/-- A machine about to execute OP_CALL with symbolic register file,
base, callee register, argument count and destination; a closure-kind
callee lives in the closure pool at id 1. -/
def call_vm (regs : List Value) (b f n d : Nat) : VMState :=
  { mica_new with
    protos := [{ code := [OP_CALL, f, n, d], constants := [], arity := 0,
                 upvalue_descs := [], name := Option.none },
               { code := [OP_RET, 0], constants := [], arity := 0,
                 upvalue_descs := [], name := Option.none }],
    closures := [{ protoId := 0, upvalues := [] },
                 { protoId := 1, upvalues := [] }],
    frames := [{ closureId := 0, ip := 0, base := b, return_register := 0 }],
    registers := regs }

/-- A machine with one open upvalue cell (id 0) over register slot 5,
used to instantiate the C3 theorem. -/
def open_cell_vm : VMState :=
  { mica_new with
    open_upvalues := [0],
    upvalHeap := [upvalue_new 5],
    registers := (List.replicate MAX_REGISTERS Value.none).set 5 (Value.i32 41) }

/-- A two-element array with spare capacity (array_push leaves trailing
none slots), for exercising the bounds checks of ARRAY_GET/ARRAY_SET. -/
def sample_array : CArray :=
  { capacity := 4, length := 2,
    data := [Value.i32 10, Value.i32 20, Value.none, Value.none] }

/-- A compiler state inside a nested scope where an inner local `x`
(depth 2) shadows an outer local `x` (depth 1), for exercising
resolve_local and end_scope. -/
def shadow_compiler : Compiler :=
  { (compiler_init Option.none) with
    scope_depth := 2, register_count := 2,
    locals := [{ name := "x", depth := 1, is_captured := false, is_mut := false },
               { name := "x", depth := 2, is_captured := false, is_mut := false }] }

/-! ## Helper lemmas -/

/-- Reading a just-written slot when the read default equals the written
value: in range it reads the written value, out of range the default. -/
theorem getD_set_self (l : List Value) (i : Nat) (v : Value) :
    (l.set i v).getD i v = v := by
  induction l generalizing i with
  | nil => simp [List.getD]
  | cons a t ih =>
    cases i with
    | zero => simp
    | succ j => simpa using ih j

/-- Writes to a different slot leave a read unchanged. -/
theorem getD_set_ne (l : List Value) (i j : Nat) (v d : Value) (h : i ≠ j) :
    (l.set i v).getD j d = l.getD j d := by
  induction l generalizing i j with
  | nil => simp
  | cons a t ih =>
    cases i with
    | zero =>
      cases j with
      | zero => exact absurd rfl h
      | succ j2 => simp
    | succ i2 =>
      cases j with
      | zero => simp
      | succ j2 => simpa using ih i2 j2 (fun hc => h (by simpa using hc))

/-! ## Claim theorems -/

/-- C1: the claim states that whenever any parse error was reported —
including errors recovered from by panic-mode resynchronisation —
mica_compile returns false and pushes no frame.  The code violates
this: on the input "let 1 = 2 let x = 3" the parser reports an error,
resynchronises at the second `let`, and then RETURNS the program,
bypassing the final had_error check, so mica_compile compiles it,
pushes a top-level frame and returns true. -/
theorem claim_C1_compile_after_parse_error :
    ((parse 100 "let 1 = 2 let x = 3").snd = [Diag.parseError 1 "expected variable name"]) ∧
    ((mica_compile 100 mica_new "let 1 = 2 let x = 3").fst = true) ∧
    ((mica_compile 100 mica_new "let 1 = 2 let x = 3").snd.frames.length = 1) := by
  decide

/-- C2 counterexample: on "let z = nosuch" the LOAD_GLOBAL of the
unknown name logs the "undefined variable" diagnostic, yet execution
continues and mica_run returns true — the claim asserted it returns
false. -/
theorem claim_C2_counterexample :
    ((mica_compile 100 mica_new "let z = nosuch").fst = true) ∧
    ((mica_run 100 (mica_compile 100 mica_new "let z = nosuch").snd).map
      (fun r => (r.fst, r.snd.diags)) = some (true, [Diag.undefinedVariable "nosuch"])) := by
  decide

/-- C4 counterexample: EQ does not follow the int/float promotion rule:
value_equal returns false whenever the tags differ, so executing OP_EQ
on the i32 1 and the f32 1.0 produces false, not true as claimed. -/
theorem claim_C4_counterexample :
    value_equal (Value.i32 1) (Value.f32 1) = false ∧
    op_eq_val (Value.i32 1) (Value.f32 1) = Value.boolV false ∧
    (match step eq_mixed_vm with
     | .next vmx => regGet vmx 2
     | .halt _ vmx => regGet vmx 2) = Value.boolV false := by
  decide

/-- C4 amended: the ordering comparisons LT, LE, GT, GE follow the same
int/float promotion rule as arithmetic (an i32 operand is promoted to
float when the other operand is f32), but EQ and NE delegate to
value_equal, which compares tags first: equality between an i32 and an
f32 is always false (and NE always true), so EQ on the i32 1 and the
f32 1.0 produces false. -/
theorem claim_C4_comparison_promotion :
    (∀ (x : Int) (q : Rat),
      op_lt_val (Value.i32 x) (Value.f32 q) = Value.boolV (decide ((x : Rat) < q)) ∧
      op_lt_val (Value.f32 q) (Value.i32 x) = Value.boolV (decide (q < (x : Rat))) ∧
      op_le_val (Value.i32 x) (Value.f32 q) = Value.boolV (decide ((x : Rat) ≤ q)) ∧
      op_le_val (Value.f32 q) (Value.i32 x) = Value.boolV (decide (q ≤ (x : Rat))) ∧
      op_gt_val (Value.i32 x) (Value.f32 q) = Value.boolV (decide ((x : Rat) > q)) ∧
      op_gt_val (Value.f32 q) (Value.i32 x) = Value.boolV (decide (q > (x : Rat))) ∧
      op_ge_val (Value.i32 x) (Value.f32 q) = Value.boolV (decide ((x : Rat) ≥ q)) ∧
      op_ge_val (Value.f32 q) (Value.i32 x) = Value.boolV (decide (q ≥ (x : Rat))) ∧
      op_eq_val (Value.i32 x) (Value.f32 q) = Value.boolV false ∧
      op_eq_val (Value.f32 q) (Value.i32 x) = Value.boolV false ∧
      op_ne_val (Value.i32 x) (Value.f32 q) = Value.boolV true ∧
      op_ne_val (Value.f32 q) (Value.i32 x) = Value.boolV true) ∧
    (∀ x y : Int,
      op_eq_val (Value.i32 x) (Value.i32 y) = Value.boolV (x == y) ∧
      op_lt_val (Value.i32 x) (Value.i32 y) = Value.boolV (decide (x < y))) ∧
    (∀ a b : Rat,
      op_eq_val (Value.f32 a) (Value.f32 b) = Value.boolV (a == b) ∧
      op_lt_val (Value.f32 a) (Value.f32 b) = Value.boolV (decide (a < b))) := by
  exact ⟨fun x q => ⟨rfl, rfl, rfl, rfl, rfl, rfl, rfl, rfl, rfl, rfl, rfl, rfl⟩,
    fun x y => ⟨rfl, rfl⟩, fun a b => ⟨rfl, rfl⟩⟩

/-- C7: ADD, SUB, MUL, DIV produce an i32 result when both operands are
i32 (no silent widening), and produce an f32 result when at least one
operand is f32, promoting an i32 operand to float (float arithmetic is
contagious).  The both-i32 DIV equation carries a nonzero-divisor
hypothesis because C integer division by zero is undefined. -/
theorem claim_C7_arith_promotion :
    (∀ x y : Int,
      op_add_val (Value.i32 x) (Value.i32 y) = Value.i32 (x + y) ∧
      op_sub_val (Value.i32 x) (Value.i32 y) = Value.i32 (x - y) ∧
      op_mul_val (Value.i32 x) (Value.i32 y) = Value.i32 (x * y) ∧
      (y ≠ 0 → op_div_val (Value.i32 x) (Value.i32 y) = Value.i32 (Int.tdiv x y))) ∧
    (∀ (x : Int) (q : Rat),
      op_add_val (Value.i32 x) (Value.f32 q) = Value.f32 ((x : Rat) + q) ∧
      op_add_val (Value.f32 q) (Value.i32 x) = Value.f32 (q + (x : Rat)) ∧
      op_sub_val (Value.i32 x) (Value.f32 q) = Value.f32 ((x : Rat) - q) ∧
      op_sub_val (Value.f32 q) (Value.i32 x) = Value.f32 (q - (x : Rat)) ∧
      op_mul_val (Value.i32 x) (Value.f32 q) = Value.f32 ((x : Rat) * q) ∧
      op_mul_val (Value.f32 q) (Value.i32 x) = Value.f32 (q * (x : Rat)) ∧
      op_div_val (Value.i32 x) (Value.f32 q) = Value.f32 ((x : Rat) / q) ∧
      op_div_val (Value.f32 q) (Value.i32 x) = Value.f32 (q / (x : Rat))) ∧
    (∀ a b : Rat,
      op_add_val (Value.f32 a) (Value.f32 b) = Value.f32 (a + b) ∧
      op_sub_val (Value.f32 a) (Value.f32 b) = Value.f32 (a - b) ∧
      op_mul_val (Value.f32 a) (Value.f32 b) = Value.f32 (a * b) ∧
      op_div_val (Value.f32 a) (Value.f32 b) = Value.f32 (a / b)) := by
  exact ⟨fun x y => ⟨rfl, rfl, rfl, fun _ => rfl⟩,
    fun x q => ⟨rfl, rfl, rfl, rfl, rfl, rfl, rfl, rfl⟩,
    fun a b => ⟨rfl, rfl, rfl, rfl⟩⟩

/-- Witness for C7: the nonzero-divisor hypothesis discharged at 7 / 3. -/
theorem claim_C7_arith_promotion_witness :
    (3 : Int) ≠ 0 ∧ op_div_val (Value.i32 7) (Value.i32 3) = Value.i32 (Int.tdiv 7 3) :=
  ⟨by decide, (claim_C7_arith_promotion.1 7 3).2.2.2 (by decide)⟩

/-- C9: assigning to a local declared without mut is reported but still
compiled: compile_assign emits exactly the same STORE_LOCAL as for a
mutable local (plus the diagnostic), and after running
`let x = 1  x = 2  return x` inside a function, reading x yields 2. -/
theorem claim_C9_immutable_assign_effective :
    ((mica_compile 100 mica_new "fn f() { let x = 1 x = 2 return x } let y = f()").snd.diags
      = [Diag.cannotAssignImmutable "x"]) ∧
    ((mica_run 200 (mica_compile 100 mica_new
        "fn f() { let x = 1 x = 2 return x } let y = f()").snd).map
      (fun r => (r.fst, mica_get_global r.snd "y")) = some (true, Value.i32 2)) ∧
    (let cNonMut : Compiler :=
       { (compiler_init Option.none) with
         scope_depth := 1, register_count := 1,
         locals := [{ name := "x", depth := 1, is_captured := false, is_mut := false }] }
     let cMut : Compiler :=
       { cNonMut with
         locals := [{ name := "x", depth := 1, is_captured := false, is_mut := true }] }
     let rNM := compile_assign 10 (Ast.assign "x" (Ast.intLit 2))
       { comps := [cNonMut], pool := [], strings := [], diags := [] }
     let rM := compile_assign 10 (Ast.assign "x" (Ast.intLit 2))
       { comps := [cMut], pool := [], strings := [], diags := [] }
     (rNM.comps.headD defaultCompiler).code = (rM.comps.headD defaultCompiler).code ∧
     (rNM.comps.headD defaultCompiler).code = [OP_LOAD_CONST, 0, 1, OP_STORE_LOCAL, 0, 1] ∧
     rNM.diags = [Diag.cannotAssignImmutable "x"] ∧
     rM.diags = []) := by
  decide

/-- Reading a just-set in-range slot yields the written value. -/
theorem getD_set_of_lt (l : List Value) (i : Nat) (v d : Value) (h : i < l.length) :
    (l.set i v).getD i d = v := by
  induction l generalizing i with
  | nil => simp at h
  | cons a t ih =>
    cases i with
    | zero => simp
    | succ j => simpa using ih j (by simpa using h)

/-- Re-running the close loop over the result of a first close pass is
a no-op: every cell it revisits is either below the threshold or already
closed. -/
theorem close_list_restart (regs : List Value) :
    ∀ (ls : List Nat) (heap : List Upvalue) (last : Nat),
      close_list regs (close_list regs heap ls last).snd (close_list regs heap ls last).fst last
        = close_list regs heap ls last := by
  intro ls
  induction ls with
  | nil => intro heap last; simp [close_list]
  | cons id rest ih =>
    intro heap last
    by_cases h : last ≤ upvalSlot heap id
    · simp only [close_list, if_pos h]
      exact ih _ _
    · simp only [close_list, if_neg h]

/-- C8: closing an upvalue cell is idempotent and value-preserving:
closing twice equals closing once; the value observed through the cell
(upval_read) is the same immediately before and after closing; the first
close of an open cell copies the slot value into the cell storage and
retargets location at that storage; and the VM-level close_upvalues
sweep is idempotent as well. -/
theorem claim_C8_upvalue_close :
    (∀ (regs regs2 : List Value) (u : Upvalue),
      upvalue_close regs2 (upvalue_close regs u) = upvalue_close regs u) ∧
    (∀ (regs : List Value) (u : Upvalue),
      upval_read regs (upvalue_close regs u) = upval_read regs u) ∧
    (∀ (regs : List Value) (u : Upvalue), u.is_closed = false →
      (upvalue_close regs u).location = UpvalLoc.self ∧
      (upvalue_close regs u).closed = upval_read regs u ∧
      (upvalue_close regs u).is_closed = true) ∧
    (∀ (vm : VMState) (last : Nat),
      close_upvalues (close_upvalues vm last) last = close_upvalues vm last) := by
  refine ⟨?_, ?_, ?_, ?_⟩
  · intro regs regs2 u
    by_cases h : u.is_closed
    · simp [upvalue_close, h]
    · simp [upvalue_close, h]
  · intro regs u
    by_cases h : u.is_closed
    · simp [upvalue_close, h]
    · simp [upvalue_close, h, upval_read]
  · intro regs u h
    simp [upvalue_close, h]
  · intro vm last
    cases vm
    simp only [close_upvalues]
    rw [close_list_restart]

theorem claim_C8_upvalue_close_witness :
    (upvalue_new 0).is_closed = false ∧
    ((upvalue_close [Value.i32 3] (upvalue_new 0)).location = UpvalLoc.self ∧
     (upvalue_close [Value.i32 3] (upvalue_new 0)).closed
       = upval_read [Value.i32 3] (upvalue_new 0) ∧
     (upvalue_close [Value.i32 3] (upvalue_new 0)).is_closed = true) :=
  ⟨by decide, claim_C8_upvalue_close.2.2.1 [Value.i32 3] (upvalue_new 0) (by decide)⟩

/-- C2 (amended): when the name looked up by LOAD_GLOBAL is in neither
the global table nor the native registry, the dispatch step logs the
undefined-variable diagnostic, writes none into the destination
register, and CONTINUES to the next instruction (StepRes.next with ip
advanced past the three-byte instruction) instead of halting with a
runtime error. -/
theorem claim_C2_load_global_fallthrough
    (regs : List Value) (globals : List (Nat × Value))
    (natives : List (String × NativeFn)) (dg : List Diag) (b : Nat)
    (hglob : find_global (load_global_vm regs globals natives dg b) 0 = Option.none)
    (hnat : find_native (load_global_vm regs globals natives dg b) "g" = Option.none) :
    step (load_global_vm regs globals natives dg b) =
      StepRes.next
        { (load_global_vm regs globals natives dg b) with
          registers := regs.set (b + 1) Value.none,
          diags := dg ++ [Diag.undefinedVariable "g"],
          frames := [{ closureId := 0, ip := 3, base := b, return_register := 0 }] } ∧
    (regs.set (b + 1) Value.none).getD (b + 1) Value.none = Value.none := by
  constructor
  · simp only [find_global, find_native, load_global_vm, mica_new] at hglob hnat
    simp only [step, load_global_vm, mica_new, find_global, find_native]
    simp [hglob, hnat, regSet, OP_NOP, OP_LOAD_CONST, OP_LOAD_LOCAL, OP_STORE_LOCAL,
      OP_MOVE, OP_LOAD_UPVAL, OP_STORE_UPVAL, OP_LOAD_GLOBAL, OP_RET]
  · exact getD_set_self regs (b + 1) Value.none

theorem claim_C2_load_global_fallthrough_witness :
    (find_global (load_global_vm (List.replicate 256 Value.none) [] [] [] 0) 0 = Option.none ∧
     find_native (load_global_vm (List.replicate 256 Value.none) [] [] [] 0) "g" = Option.none) ∧
    (step (load_global_vm (List.replicate 256 Value.none) [] [] [] 0) =
      StepRes.next
        { (load_global_vm (List.replicate 256 Value.none) [] [] [] 0) with
          registers := (List.replicate 256 Value.none).set (0 + 1) Value.none,
          diags := [] ++ [Diag.undefinedVariable "g"],
          frames := [{ closureId := 0, ip := 3, base := 0, return_register := 0 }] } ∧
     ((List.replicate 256 Value.none).set (0 + 1) Value.none).getD (0 + 1) Value.none
       = Value.none) :=
  ⟨⟨rfl, rfl⟩,
   claim_C2_load_global_fallthrough (List.replicate 256 Value.none) [] [] [] 0 rfl rfl⟩

/-- C5 counterexample: calling a 0-argument closure from base 0 with the
caller holding an i32 at absolute register 33 (= new window base 1 +
offset 32): after OP_CALL pushes the frame, register 33 still holds
i32 7 — the window is NOT zeroed at offsets 32 and above, because the
memset in OP_CALL covers only 32 registers. -/
theorem claim_C5_counterexample :
    (match step call_window_vm with
     | .next vmx => (vmx.frames.length, regGet vmx 33)
     | .halt _ vmx => (0, regGet vmx 33)) = (2, Value.i32 7) := by decide

theorem zero_fold_preserve (nb na : Nat) :
    ∀ (ls : List Nat) (regs : List Value) (i : Nat),
      regs.getD i Value.none = Value.none →
      ((ls.foldl (fun rs k =>
          if nb + k < MAX_REGISTERS ∧ na ≤ k then rs.set (nb + k) Value.none else rs)
        regs).getD i Value.none) = Value.none := by
  intro ls
  induction ls with
  | nil => intro regs i h; simpa using h
  | cons k rest ih =>
    intro regs i h
    simp only [List.foldl_cons]
    apply ih
    by_cases hc : nb + k < MAX_REGISTERS ∧ na ≤ k
    · simp only [if_pos hc]
      by_cases hi : nb + k = i
      · subst hi; exact getD_set_self _ _ _
      · rw [getD_set_ne _ _ _ _ _ hi]; exact h
    · simp only [if_neg hc]; exact h

theorem zero_fold_hit (nb na : Nat) :
    ∀ (ls : List Nat) (regs : List Value) (k : Nat),
      k ∈ ls → nb + k < MAX_REGISTERS → na ≤ k →
      ((ls.foldl (fun rs k2 =>
          if nb + k2 < MAX_REGISTERS ∧ na ≤ k2 then rs.set (nb + k2) Value.none else rs)
        regs).getD (nb + k) Value.none) = Value.none := by
  intro ls
  induction ls with
  | nil => intro regs k hmem; cases hmem
  | cons k0 rest ih =>
    intro regs k hmem h1 h2
    simp only [List.foldl_cons]
    rcases List.mem_cons.mp hmem with hk | hk
    · subst hk
      apply zero_fold_preserve
      simp only [if_pos (And.intro h1 h2)]
      exact getD_set_self _ _ _
    · exact ih _ k hk h1 h2

theorem zero_fold_untouched (nb na : Nat) :
    ∀ (ls : List Nat) (regs : List Value) (i : Nat),
      (∀ k ∈ ls, na ≤ k → nb + k ≠ i) →
      ((ls.foldl (fun rs k =>
          if nb + k < MAX_REGISTERS ∧ na ≤ k then rs.set (nb + k) Value.none else rs)
        regs).getD i Value.none) = regs.getD i Value.none := by
  intro ls
  induction ls with
  | nil => intro regs i _; rfl
  | cons k rest ih =>
    intro regs i h
    simp only [List.foldl_cons]
    rw [ih _ i (fun k2 hk2 => h k2 (List.mem_cons_of_mem _ hk2))]
    by_cases hc : nb + k < MAX_REGISTERS ∧ na ≤ k
    · simp only [if_pos hc]
      exact getD_set_ne _ _ _ _ _ (h k (List.mem_cons_self _ _) hc.2)
    · simp only [if_neg hc]

/-- C5 (amended): OP_CALL on a closure pushes the callee frame and
pre-zeroes ONLY the first 32 registers of the new window that lie at or
above the argument count n (and inside the register file); registers of
the new window at offset 32 or beyond keep their old contents, and
registers below the new window (the caller area including the
arguments) are untouched. -/
theorem claim_C5_call_window_zeroing
    (regs : List Value) (b f n d : Nat)
    (hfunc : regs.getD (b + f) Value.none = Value.closure 1) :
    step (call_vm regs b f n d) =
      StepRes.next
        { (call_vm regs b f n d) with
          registers := zero_call_window regs (b + f + 1) n,
          frames := [{ closureId := 1, ip := 0, base := b + f + 1,
                       return_register := (b + d) % 256 },
                     { closureId := 0, ip := 4, base := b, return_register := 0 }] } ∧
    (∀ k, n ≤ k → k < 32 → b + f + 1 + k < MAX_REGISTERS →
      (zero_call_window regs (b + f + 1) n).getD (b + f + 1 + k) Value.none = Value.none) ∧
    (∀ k, 32 ≤ k →
      (zero_call_window regs (b + f + 1) n).getD (b + f + 1 + k) Value.none
        = regs.getD (b + f + 1 + k) Value.none) ∧
    (∀ i, i < b + f + 1 + n →
      (zero_call_window regs (b + f + 1) n).getD i Value.none = regs.getD i Value.none) := by
  refine ⟨?_, ?_, ?_, ?_⟩
  · have hfunc2 : regs[b + f]?.getD Value.none = Value.closure 1 := by
      simpa [List.getD] using hfunc
    simp only [step, call_vm, mica_new, regGet]
    simp [hfunc2, OP_NOP, OP_LOAD_CONST, OP_LOAD_LOCAL, OP_STORE_LOCAL,
      OP_MOVE, OP_LOAD_UPVAL, OP_STORE_UPVAL, OP_LOAD_GLOBAL, OP_STORE_GLOBAL,
      OP_ADD, OP_SUB, OP_MUL, OP_DIV, OP_MOD, OP_NEG, OP_EQ, OP_NE, OP_LT, OP_LE,
      OP_GT, OP_GE, OP_JMP, OP_JMP_IF, OP_JMP_IF_NOT, OP_RET, OP_CALL, MAX_FRAMES]
  · intro k hk1 hk2 hk3
    exact zero_fold_hit _ _ _ _ _ (List.mem_range.mpr hk2) hk3 hk1
  · intro k hk
    apply zero_fold_untouched
    intro k2 hk2 _ hne
    have : k2 < 32 := List.mem_range.mp hk2
    omega
  · intro i hi
    apply zero_fold_untouched
    intro k2 hk2 hle hne
    omega

theorem claim_C5_call_window_zeroing_witness :
    (((List.replicate 256 Value.none).set 0 (Value.closure 1)).getD (0 + 0) Value.none
       = Value.closure 1) ∧
    (zero_call_window ((List.replicate 256 Value.none).set 0 (Value.closure 1))
        (0 + 0 + 1) 0).getD (0 + 0 + 1 + 5) Value.none = Value.none :=
  ⟨by decide,
   (claim_C5_call_window_zeroing ((List.replicate 256 Value.none).set 0 (Value.closure 1))
       0 0 0 0 (by decide)).2.1 5 (by decide) (by decide) (by decide)⟩

/-- C6: ARRAY_GET and ARRAY_SET are bounds-checked: with the index in
[0, length) the step continues, GET writing the stored element into the
destination register and SET storing the value at the index without
changing the length; with a negative index or one at/above length the
step halts with false (mica_run returns false) after logging the
index-out-of-bounds diagnostic. -/
theorem claim_C6_array_bounds :
    (∀ (arr : CArray) (i : Int),
      ((0 ≤ i ∧ i.toNat < array_len arr) →
        step (array_get_vm arr i) =
          StepRes.next
            { (array_get_vm arr i) with
              registers := (array_get_vm arr i).registers.set 3 (array_get arr i.toNat),
              frames := [{ closureId := 0, ip := 4, base := 0, return_register := 0 }] } ∧
        array_get arr i.toNat = arr.data.getD i.toNat Value.none) ∧
      ((i < 0 ∨ array_len arr ≤ i.toNat) →
        step (array_get_vm arr i) =
          StepRes.halt false
            { (array_get_vm arr i) with diags := [Diag.indexOutOfBounds i] })) ∧
    (∀ (arr : CArray) (i : Int) (v : Value),
      ((0 ≤ i ∧ i.toNat < array_len arr) →
        step (array_set_vm arr i v) =
          StepRes.next
            { (array_set_vm arr i v) with
              arrays := [array_set arr i.toNat v],
              frames := [{ closureId := 0, ip := 4, base := 0, return_register := 0 }] } ∧
        (arr.length ≤ arr.data.length →
          (array_set arr i.toNat v).data.getD i.toNat Value.none = v) ∧
        array_len (array_set arr i.toNat v) = array_len arr) ∧
      ((i < 0 ∨ array_len arr ≤ i.toNat) →
        step (array_set_vm arr i v) =
          StepRes.halt false
            { (array_set_vm arr i v) with diags := [Diag.indexOutOfBounds i] })) := by
  refine ⟨?_, ?_⟩
  · intro arr i
    constructor
    · intro h
      have hno : ¬(i < 0 ∨ array_len arr ≤ i.toNat) := by
        simp only [array_len] at h ⊢
        omega
      constructor
      · simp only [step, array_get_vm, mica_new, regGet, regSet]
        simp [hno, OP_NOP, OP_LOAD_CONST, OP_LOAD_LOCAL, OP_STORE_LOCAL,
          OP_MOVE, OP_LOAD_UPVAL, OP_STORE_UPVAL, OP_LOAD_GLOBAL, OP_STORE_GLOBAL,
          OP_ADD, OP_SUB, OP_MUL, OP_DIV, OP_MOD, OP_NEG, OP_EQ, OP_NE, OP_LT, OP_LE,
          OP_GT, OP_GE, OP_JMP, OP_JMP_IF, OP_JMP_IF_NOT, OP_RET, OP_CALL, OP_CLOSURE,
          OP_CLOSE_UPVAL, OP_CALL_NATIVE, OP_ARRAY_NEW, OP_ARRAY_GET]
      · simp only [array_get, array_len] at h ⊢
        rw [if_neg (by omega)]
    · intro h
      simp only [step, array_get_vm, mica_new, regGet]
      simp [h, OP_NOP, OP_LOAD_CONST, OP_LOAD_LOCAL, OP_STORE_LOCAL,
        OP_MOVE, OP_LOAD_UPVAL, OP_STORE_UPVAL, OP_LOAD_GLOBAL, OP_STORE_GLOBAL,
        OP_ADD, OP_SUB, OP_MUL, OP_DIV, OP_MOD, OP_NEG, OP_EQ, OP_NE, OP_LT, OP_LE,
        OP_GT, OP_GE, OP_JMP, OP_JMP_IF, OP_JMP_IF_NOT, OP_RET, OP_CALL, OP_CLOSURE,
        OP_CLOSE_UPVAL, OP_CALL_NATIVE, OP_ARRAY_NEW, OP_ARRAY_GET]
  · intro arr i v
    constructor
    · intro h
      have hno : ¬(i < 0 ∨ array_len arr ≤ i.toNat) := by
        simp only [array_len] at h ⊢
        omega
      refine ⟨?_, ?_, ?_⟩
      · simp only [step, array_set_vm, mica_new, regGet]
        simp [hno, OP_NOP, OP_LOAD_CONST, OP_LOAD_LOCAL, OP_STORE_LOCAL,
          OP_MOVE, OP_LOAD_UPVAL, OP_STORE_UPVAL, OP_LOAD_GLOBAL, OP_STORE_GLOBAL,
          OP_ADD, OP_SUB, OP_MUL, OP_DIV, OP_MOD, OP_NEG, OP_EQ, OP_NE, OP_LT, OP_LE,
          OP_GT, OP_GE, OP_JMP, OP_JMP_IF, OP_JMP_IF_NOT, OP_RET, OP_CALL, OP_CLOSURE,
          OP_CLOSE_UPVAL, OP_CALL_NATIVE, OP_ARRAY_NEW, OP_ARRAY_GET, OP_ARRAY_SET]
      · intro hwf
        simp only [array_set, array_len] at h ⊢
        rw [if_neg (by omega)]
        exact getD_set_of_lt _ _ _ _ (by omega)
      · simp only [array_set, array_len] at h ⊢
        rw [if_neg (by omega)]
    · intro h
      simp only [step, array_set_vm, mica_new, regGet]
      simp [h, OP_NOP, OP_LOAD_CONST, OP_LOAD_LOCAL, OP_STORE_LOCAL,
        OP_MOVE, OP_LOAD_UPVAL, OP_STORE_UPVAL, OP_LOAD_GLOBAL, OP_STORE_GLOBAL,
        OP_ADD, OP_SUB, OP_MUL, OP_DIV, OP_MOD, OP_NEG, OP_EQ, OP_NE, OP_LT, OP_LE,
        OP_GT, OP_GE, OP_JMP, OP_JMP_IF, OP_JMP_IF_NOT, OP_RET, OP_CALL, OP_CLOSURE,
        OP_CLOSE_UPVAL, OP_CALL_NATIVE, OP_ARRAY_NEW, OP_ARRAY_GET, OP_ARRAY_SET]

theorem claim_C6_array_bounds_witness :
    ((0 ≤ (1 : Int) ∧ (1 : Int).toNat < array_len sample_array) ∧
     ((5 : Int) < 0 ∨ array_len sample_array ≤ (5 : Int).toNat)) ∧
    (array_get sample_array (1 : Int).toNat
       = sample_array.data.getD (1 : Int).toNat Value.none ∧
     step (array_get_vm sample_array 5)
       = StepRes.halt false
           { (array_get_vm sample_array 5) with diags := [Diag.indexOutOfBounds 5] }) :=
  ⟨⟨⟨by decide, by decide⟩, by decide⟩,
   ((claim_C6_array_bounds.1 sample_array 1).1 (by decide)).2,
   (claim_C6_array_bounds.1 sample_array 5).2 (by decide)⟩

theorem getD_append_lt (l l2 : List Upvalue) (i : Nat) (d : Upvalue) (h : i < l.length) :
    (l ++ l2).getD i d = l.getD i d := by
  induction l generalizing i with
  | nil => simp at h
  | cons a t ih =>
    cases i with
    | zero => simp
    | succ j => simpa using ih j (by simpa using h)

theorem getD_append_length (l : List Upvalue) (u d : Upvalue) :
    (l ++ [u]).getD l.length d = u := by
  induction l with
  | nil => simp
  | cons a t ih => simp [ih]

theorem takeWhile_split (p : Nat → Bool) :
    ∀ (l1 : List Nat) (a : Nat) (l2 : List Nat),
      (∀ x ∈ l1, p x = true) → p a = false →
      (l1 ++ a :: l2).takeWhile p = l1 ∧ (l1 ++ a :: l2).dropWhile p = a :: l2 := by
  intro l1
  induction l1 with
  | nil => intro a l2 _ hpa; simp [List.takeWhile_cons, List.dropWhile_cons, hpa]
  | cons x t ih =>
    intro a l2 h hpa
    have hx : p x = true := h x (List.mem_cons_self _ _)
    have := ih a l2 (fun y hy => h y (List.mem_cons_of_mem _ hy)) hpa
    simp [List.takeWhile_cons, List.dropWhile_cons, hx, this.1, this.2]

theorem dropWhile_sorted_mem (heap : List Upvalue) (s : Nat) :
    ∀ (ls : List Nat) (id : Nat),
      List.Pairwise (fun a b => upvalSlot heap b < upvalSlot heap a) ls →
      id ∈ ls → upvalSlot heap id = s →
      ∃ rest, ls.dropWhile (fun x => decide (s < upvalSlot heap x)) = id :: rest := by
  intro ls
  induction ls with
  | nil => intro id _ hmem; cases hmem
  | cons a t ih =>
    intro id hp hmem hslot
    rcases List.mem_cons.mp hmem with h | h
    · subst h
      refine ⟨t, ?_⟩
      simp [List.dropWhile_cons, hslot]
    · have hlt : upvalSlot heap id < upvalSlot heap a :=
        (List.pairwise_cons.mp hp).1 id h
      have hpa : decide (s < upvalSlot heap a) = true := by
        rw [hslot] at hlt; simpa using hlt
      rcases ih id (List.pairwise_cons.mp hp).2 h hslot with ⟨rest, hrest⟩
      exact ⟨rest, by simp [List.dropWhile_cons, hpa, hrest]⟩

theorem capture_upvalue_found (vm : VMState) (s id : Nat)
    (hsorted : List.Pairwise
      (fun a b => upvalSlot vm.upvalHeap b < upvalSlot vm.upvalHeap a) vm.open_upvalues)
    (hmem : id ∈ vm.open_upvalues)
    (hslot : upvalSlot vm.upvalHeap id = s) :
    capture_upvalue vm s = (id, vm) := by
  rcases dropWhile_sorted_mem vm.upvalHeap s vm.open_upvalues id hsorted hmem hslot with ⟨rest, hrest⟩
  simp [capture_upvalue, hrest, hslot]

theorem upvalSlot_append_lt (heap l2 : List Upvalue) (x : Nat) (h : x < heap.length) :
    upvalSlot (heap ++ l2) x = upvalSlot heap x := by
  unfold upvalSlot
  rw [getD_append_lt _ _ _ _ h]

theorem mem_takeWhile_decide (s : Nat) (heap : List Upvalue) (ls : List Nat) (x : Nat)
    (hx : x ∈ ls.takeWhile (fun x => decide (s < upvalSlot heap x))) :
    s < upvalSlot heap x := by
  have := List.mem_takeWhile_imp hx
  simpa using this

theorem capture_upvalue_idem (vm : VMState) (s : Nat)
    (hvalid : ∀ id ∈ vm.open_upvalues, id < vm.upvalHeap.length) :
    capture_upvalue (capture_upvalue vm s).snd s = (capture_upvalue vm s) := by
  cases hrest : vm.open_upvalues.dropWhile (fun x => decide (s < upvalSlot vm.upvalHeap x)) with
  | nil =>
    have hres : capture_upvalue vm s =
        (vm.upvalHeap.length,
         { vm with
             upvalHeap := vm.upvalHeap ++ [upvalue_new s],
             open_upvalues := vm.open_upvalues.takeWhile
               (fun x => decide (s < upvalSlot vm.upvalHeap x)) ++ [vm.upvalHeap.length] }) := by
      simp [capture_upvalue, hrest]
    rw [hres]
    have hslot1 : upvalSlot (vm.upvalHeap ++ [upvalue_new s]) vm.upvalHeap.length = s := by
      simp [upvalSlot, getD_append_length, upvalue_new]
    have hpre1 : ∀ x ∈ vm.open_upvalues.takeWhile
        (fun x => decide (s < upvalSlot vm.upvalHeap x)),
        decide (s < upvalSlot (vm.upvalHeap ++ [upvalue_new s]) x) = true := by
      intro x hx
      have hxv : x < vm.upvalHeap.length :=
        hvalid x (List.takeWhile_subset _ hx)
      rw [upvalSlot_append_lt _ _ _ hxv]
      simpa using mem_takeWhile_decide s vm.upvalHeap vm.open_upvalues x hx
    have hpafalse :
        decide (s < upvalSlot (vm.upvalHeap ++ [upvalue_new s]) vm.upvalHeap.length) = false := by
      simp [hslot1]
    have hsplit := takeWhile_split _ _ vm.upvalHeap.length [] hpre1 hpafalse
    simp [capture_upvalue, hsplit.2, hslot1]
  | cons id0 rest0 =>
    by_cases hs : upvalSlot vm.upvalHeap id0 = s
    · have hres : capture_upvalue vm s = (id0, vm) := by
        simp [capture_upvalue, hrest, hs]
      rw [hres, hres]
    · have hres : capture_upvalue vm s =
          (vm.upvalHeap.length,
           { vm with
               upvalHeap := vm.upvalHeap ++ [upvalue_new s],
               open_upvalues := vm.open_upvalues.takeWhile
                 (fun x => decide (s < upvalSlot vm.upvalHeap x)) ++
                   vm.upvalHeap.length :: id0 :: rest0 }) := by
        simp [capture_upvalue, hrest, hs]
      rw [hres]
      have hslot1 : upvalSlot (vm.upvalHeap ++ [upvalue_new s]) vm.upvalHeap.length = s := by
        simp [upvalSlot, getD_append_length, upvalue_new]
      have hpre1 : ∀ x ∈ vm.open_upvalues.takeWhile
          (fun x => decide (s < upvalSlot vm.upvalHeap x)),
          decide (s < upvalSlot (vm.upvalHeap ++ [upvalue_new s]) x) = true := by
        intro x hx
        have hxv : x < vm.upvalHeap.length :=
          hvalid x (List.takeWhile_subset _ hx)
        rw [upvalSlot_append_lt _ _ _ hxv]
        simpa using mem_takeWhile_decide s vm.upvalHeap vm.open_upvalues x hx
      have hpafalse :
          decide (s < upvalSlot (vm.upvalHeap ++ [upvalue_new s]) vm.upvalHeap.length) = false := by
        simp [hslot1]
      have hsplit := takeWhile_split _ _ vm.upvalHeap.length (id0 :: rest0) hpre1 hpafalse
      simp [capture_upvalue, hsplit.2, hslot1]

/-- C3: the shared-cell property of upvalues. (1) an OP_CLOSURE capture
descriptor with is_local = 1 whose slot already has an open upvalue
(the open list being sorted by strictly descending slot) reuses that
cell id and leaves the VM unchanged; (2) capturing the same slot twice
yields the same single cell (capture_upvalue is idempotent); (3) a
descriptor with is_local = 0 copies the enclosing closure cell id
unchanged; (4)-(6) reads and writes through an open cell and direct
register reads/writes of the captured local observe the same values. -/
theorem claim_C3_shared_upvalue_cell
    (vm : VMState) (s id idx base : Nat) (enclosing : ClosureObj)
    (rest : List (Nat × Nat)) (regs : List Value) (v : Value)
    (hsorted : List.Pairwise
      (fun a b => upvalSlot vm.upvalHeap b < upvalSlot vm.upvalHeap a) vm.open_upvalues)
    (hmem : id ∈ vm.open_upvalues)
    (hslot : upvalSlot vm.upvalHeap id = base + idx)
    (hvalid : ∀ i ∈ vm.open_upvalues, i < vm.upvalHeap.length)
    (hlen : s < regs.length) :
    capture_descs vm base enclosing ((1, idx) :: rest)
      = (id :: (capture_descs vm base enclosing rest).fst,
         (capture_descs vm base enclosing rest).snd)
    ∧ capture_upvalue (capture_upvalue vm (base + idx)).snd (base + idx)
        = capture_upvalue vm (base + idx)
    ∧ capture_descs vm base enclosing ((0, idx) :: rest)
        = (enclosing.upvalues.getD idx 0 :: (capture_descs vm base enclosing rest).fst,
           (capture_descs vm base enclosing rest).snd)
    ∧ upval_read regs (upvalue_new s) = regs.getD s Value.none
    ∧ (upval_write regs (upvalue_new s) v).fst.getD s Value.none = v
    ∧ upval_read (regs.set s v) (upvalue_new s) = v := by
  refine ⟨?_, capture_upvalue_idem vm (base + idx) hvalid, ?_, ?_, ?_, ?_⟩
  · have h := capture_upvalue_found vm (base + idx) id hsorted hmem hslot
    simp [capture_descs, h]
  · simp [capture_descs]
  · simp [upval_read, upvalue_new]
  · show (regs.set s v).getD s Value.none = v
    exact getD_set_of_lt _ _ _ _ hlen
  · show (regs.set s v).getD s Value.none = v
    exact getD_set_of_lt _ _ _ _ hlen

theorem claim_C3_shared_upvalue_cell_witness :
    (0 ∈ open_cell_vm.open_upvalues ∧ upvalSlot open_cell_vm.upvalHeap 0 = 5 + 0) ∧
    (capture_descs open_cell_vm 5 ⟨0, [0]⟩ ((1, 0) :: [])
      = (0 :: (capture_descs open_cell_vm 5 ⟨0, [0]⟩ []).fst,
         (capture_descs open_cell_vm 5 ⟨0, [0]⟩ []).snd)
    ∧ capture_upvalue (capture_upvalue open_cell_vm (5 + 0)).snd (5 + 0)
        = capture_upvalue open_cell_vm (5 + 0)
    ∧ capture_descs open_cell_vm 5 ⟨0, [0]⟩ ((0, 0) :: [])
        = ((⟨0, [0]⟩ : ClosureObj).upvalues.getD 0 0 ::
            (capture_descs open_cell_vm 5 ⟨0, [0]⟩ []).fst,
           (capture_descs open_cell_vm 5 ⟨0, [0]⟩ []).snd)
    ∧ upval_read open_cell_vm.registers (upvalue_new 5)
        = open_cell_vm.registers.getD 5 Value.none
    ∧ (upval_write open_cell_vm.registers (upvalue_new 5) (Value.i32 7)).fst.getD 5 Value.none
        = Value.i32 7
    ∧ upval_read (open_cell_vm.registers.set 5 (Value.i32 7)) (upvalue_new 5)
        = Value.i32 7) :=
  ⟨⟨by decide, by decide⟩,
   claim_C3_shared_upvalue_cell open_cell_vm 5 0 0 5 ⟨0, [0]⟩ [] open_cell_vm.registers
     (Value.i32 7) (by decide) (by decide) (by decide) (by decide) (by decide)⟩

theorem resolve_local_scan_none (ls : List Local) (name : String)
    (h : ∀ l ∈ ls, l.name ≠ name) :
    resolve_local_scan ls name = Option.none := by
  induction ls with
  | nil => rfl
  | cons a t ih =>
    simp only [resolve_local_scan]
    rw [ih (fun l hl => h l (List.mem_cons_of_mem _ hl))]
    simp [h a (List.mem_cons_self _ _)]

theorem resolve_local_scan_append_last (ls : List Local) (l : Local) (name : String)
    (h : l.name = name) :
    resolve_local_scan (ls ++ [l]) name = some ls.length := by
  induction ls with
  | nil => simp [resolve_local_scan, h]
  | cons a t ih => simp [resolve_local_scan, List.append_eq, ih]

theorem resolve_local_scan_append_nomatch (ls1 ls2 : List Local) (name : String)
    (h : ∀ l ∈ ls2, l.name ≠ name) :
    resolve_local_scan (ls1 ++ ls2) name = resolve_local_scan ls1 name := by
  induction ls1 with
  | nil => simpa using resolve_local_scan_none ls2 name h
  | cons a t ih => simp only [List.cons_append, resolve_local_scan, List.append_eq, ih]

theorem end_scope_loop_pops (d : Int) :
    ∀ (ls2 ls1 : List Local) (c : Compiler) (n : Nat),
      c.scope_depth = d → c.locals = ls1 ++ ls2 →
      (∀ l ∈ ls2, d < l.depth) →
      (∀ l, ls1.getLast? = some l → l.depth ≤ d) →
      ls2.length ≤ n →
      (end_scope_loop n c).locals = ls1 := by
  intro ls2
  induction ls2 using List.reverseRecOn with
  | nil =>
    intro ls1 c n hd hls hdeep hlast hn
    cases n with
    | zero =>
      simp only [end_scope_loop]
      simpa using hls
    | succ m =>
      simp only [end_scope_loop]
      split
      · simpa using hls
      · next l hg =>
        have hl1 : ls1.getLast? = some l := by
          rw [hls] at hg; simpa using hg
        rw [if_neg (by have := hlast l hl1; omega)]
        simpa using hls
  | append_singleton ys y ih =>
    intro ls1 c n hd hls hdeep hlast hn
    cases n with
    | zero => simp at hn
    | succ m =>
      have hsome : c.locals.getLast? = some y := by
        rw [hls, ← List.append_assoc]
        exact List.getLast?_concat _
      simp only [end_scope_loop]
      split
      · next hg => rw [hsome] at hg; cases hg
      · next l hg =>
        rw [hsome] at hg
        have hly : l = y := (Option.some.inj hg).symm
        subst hly
        have hy : d < l.depth := hdeep l (by simp)
        rw [if_pos (by rw [hd]; omega)]
        by_cases hc : l.is_captured
        · rw [if_pos hc]
          apply ih ls1 _ m
          · simpa [emit_byte, emit_op] using hd
          · simp only [emit_byte, emit_op]
            rw [hls, ← List.append_assoc]
            simp [List.dropLast_concat]
          · intro x hx; exact hdeep x (by simp [hx])
          · exact hlast
          · simpa using hn
        · rw [if_neg hc]
          apply ih ls1 _ m
          · exact hd
          · rw [hls, ← List.append_assoc]
            simp [List.dropLast_concat]
          · intro x hx; exact hdeep x (by simp [hx])
          · exact hlast
          · simpa using hn

/-- C10: resolve_local scans the locals table from the highest index
downward, so (1) a newly appended local with the sought name wins
(shadowing); (2) when no local in a suffix matches, resolution is
determined by the prefix; (3) end_scope pops exactly the locals of the
inner scope (those deeper than the decremented scope_depth); (4) for an
inner declaration shadowing an outer one, the name resolves to the
inner local before end_scope and to the outer table afterwards. -/
theorem claim_C10_resolve_local_shadowing :
    (∀ (c : Compiler) (l : Local) (name : String), l.name = name →
      resolve_local { c with locals := c.locals ++ [l] } name = some c.locals.length) ∧
    (∀ (c : Compiler) (ls1 ls2 : List Local) (name : String),
      c.locals = ls1 ++ ls2 → (∀ l ∈ ls2, l.name ≠ name) →
      resolve_local c name = resolve_local_scan ls1 name) ∧
    (∀ (c : Compiler) (ls1 ls2 : List Local),
      c.locals = ls1 ++ ls2 →
      (∀ l ∈ ls2, c.scope_depth - 1 < l.depth) →
      (∀ l, ls1.getLast? = some l → l.depth ≤ c.scope_depth - 1) →
      (end_scope c).locals = ls1) ∧
    (∀ (c : Compiler) (ls1 : List Local) (inner : Local) (name : String),
      c.locals = ls1 ++ [inner] → inner.name = name →
      c.scope_depth - 1 < inner.depth →
      (∀ l, ls1.getLast? = some l → l.depth ≤ c.scope_depth - 1) →
      resolve_local c name = some ls1.length ∧
      resolve_local (end_scope c) name = resolve_local_scan ls1 name) := by
  have hpop : ∀ (c : Compiler) (ls1 ls2 : List Local),
      c.locals = ls1 ++ ls2 →
      (∀ l ∈ ls2, c.scope_depth - 1 < l.depth) →
      (∀ l, ls1.getLast? = some l → l.depth ≤ c.scope_depth - 1) →
      (end_scope c).locals = ls1 := by
    intro c ls1 ls2 hls hdeep hlast
    unfold end_scope
    exact end_scope_loop_pops (c.scope_depth - 1) ls2 ls1 _ _ rfl (by simpa using hls)
      hdeep hlast (by simp [hls])
  refine ⟨?_, ?_, hpop, ?_⟩
  · intro c l name h
    exact resolve_local_scan_append_last _ _ _ h
  · intro c ls1 ls2 name hls h
    unfold resolve_local
    rw [hls]
    exact resolve_local_scan_append_nomatch _ _ _ h
  · intro c ls1 inner name hls hname hdeep hlast
    constructor
    · unfold resolve_local
      rw [hls]
      exact resolve_local_scan_append_last _ _ _ hname
    · unfold resolve_local
      rw [hpop c ls1 [inner] hls (by intro l hl; simp at hl; subst hl; exact hdeep) hlast]

theorem claim_C10_resolve_local_shadowing_witness :
    (shadow_compiler.locals
       = [{ name := "x", depth := 1, is_captured := false, is_mut := false }]
         ++ [{ name := "x", depth := 2, is_captured := false, is_mut := false }]) ∧
    (resolve_local shadow_compiler "x" = some 1 ∧
     resolve_local (end_scope shadow_compiler) "x"
       = resolve_local_scan
           [{ name := "x", depth := 1, is_captured := false, is_mut := false }] "x") :=
  ⟨by decide,
   claim_C10_resolve_local_shadowing.2.2.2 shadow_compiler
     [{ name := "x", depth := 1, is_captured := false, is_mut := false }]
     { name := "x", depth := 2, is_captured := false, is_mut := false } "x"
     (by decide) (by decide) (by decide)
     (by
       intro l hl
       simp at hl
       subst hl
       decide)⟩

end Mica
